import Mathlib

/-!
# Package output parser (`web/server/parser/packageParser.go`)

A shallow embedding of the parser that turns the textual output of `go test`
into a `PackageResult`, followed by theorems about it.

Modelling conventions.

* A Go `string` is its sequence of bytes (`GoString = List Nat`).
* A Go pointer to a `TestResult` is an index into `outputParser.tests`, the list
  of the records allocated so far (every record is allocated by
  `registerTestFunction` and appended to that list at once); `nil` is `none`.
* A Go runtime failure (index out of range, nil dereference, slice bounds) is an
  `Except.error`; a run that completes is an `Except.ok`.
* `float64` values are kept abstract (a type `F` with `0` and `-1`): the parser only
  stores them.
* The collaborators that live in other files of the package (line predicates,
  duration parsers, per-test parser) and `strconv.ParseFloat` are the fields of
  `Env`; every definition below is parametric in them.
-/

namespace PackageParser

/-- A Go string: its bytes. -/
abbrev GoString := List Nat

/-- UTF-8 encoding of one code point. -/
def utf8 (n : Nat) : List Nat :=
  if n < 0x80 then [n]
  else if n < 0x800 then [0xC0 + n / 64, 0x80 + n % 64]
  else if n < 0x10000 then [0xE0 + n / 4096, 0x80 + (n / 64) % 64, 0x80 + n % 64]
  else [0xF0 + n / 262144, 0x80 + (n / 4096) % 64, 0x80 + (n / 64) % 64, 0x80 + n % 64]

/-- The Go string written as the literal `s`. -/
def bytes (s : String) : GoString :=
  (s.data.map (fun c => utf8 c.toNat)).flatten

/-- Go runtime failures the parser can run into. -/
inductive RuntimeError where
  | indexOutOfRange
  | nilDereference
  | sliceBounds
  deriving DecidableEq, Repr

/-! ## The part of package `strings` the parser uses -/

namespace strings

/-- The byte `'\n'`. -/
def nl : Nat := 0x0A
/-- The byte `'\t'`. -/
def tab : Nat := 0x09
/-- The byte `' '`. -/
def space : Nat := 0x20
/-- The byte `'%'`. -/
def percent : Nat := 0x25

/-- Width in bytes of the white-space rune (`unicode.IsSpace`) that `s` starts with,
`0` when `s` does not start with one. -/
def spaceWidth : GoString → Nat
  | [] => 0
  | b :: rest =>
    if b = 0x09 ∨ b = 0x0A ∨ b = 0x0B ∨ b = 0x0C ∨ b = 0x0D ∨ b = 0x20 then 1
    else if b = 0xC2 then
      match rest with
      | c :: _ => if c = 0x85 ∨ c = 0xA0 then 2 else 0
      | [] => 0
    else if b = 0xE1 then
      match rest with
      | c :: d :: _ => if c = 0x9A ∧ d = 0x80 then 3 else 0
      | _ => 0
    else if b = 0xE2 then
      match rest with
      | c :: d :: _ =>
        if c = 0x80 ∧ ((0x80 ≤ d ∧ d ≤ 0x8A) ∨ d = 0xA8 ∨ d = 0xA9 ∨ d = 0xAF) then 3
        else if c = 0x81 ∧ d = 0x9F then 3 else 0
      | _ => 0
    else if b = 0xE3 then
      match rest with
      | c :: d :: _ => if c = 0x80 ∧ d = 0x80 then 3 else 0
      | _ => 0
    else 0

/-- Width in bytes of the white-space rune that ends the string whose reversal is `r`. -/
def spaceWidthRev : GoString → Nat
  | [] => 0
  | b :: rest =>
    if b = 0x09 ∨ b = 0x0A ∨ b = 0x0B ∨ b = 0x0C ∨ b = 0x0D ∨ b = 0x20 then 1
    else
      match rest with
      | c :: rest2 =>
        if c = 0xC2 ∧ (b = 0x85 ∨ b = 0xA0) then 2
        else
          match rest2 with
          | d :: _ => if spaceWidth [d, c, b] = 3 then 3 else 0
          | [] => 0
      | [] => 0

/-- Drop leading white-space runes, at most `fuel` of them. -/
def trimSpaceLeft : Nat → GoString → GoString
  | 0, s => s
  | fuel + 1, s =>
    match spaceWidth s with
    | 0 => s
    | w => trimSpaceLeft fuel (s.drop w)

/-- Drop trailing white-space runes of the string whose reversal is `r`. -/
def trimSpaceRev : Nat → GoString → GoString
  | 0, r => r
  | fuel + 1, r =>
    match spaceWidthRev r with
    | 0 => r
    | w => trimSpaceRev fuel (r.drop w)

/-- `strings.TrimSpace`: the string without leading and trailing white space. -/
def TrimSpace (s : GoString) : GoString :=
  (trimSpaceRev s.length (trimSpaceLeft s.length s).reverse).reverse

/-- Splitting at a one-byte separator; `cur` is the field being read. -/
def splitAux (sep : Nat) : GoString → GoString → List GoString
  | [], cur => [cur]
  | b :: rest, cur =>
    if b = sep then cur :: splitAux sep rest [] else splitAux sep rest (cur ++ [b])

/-- `strings.Split(s, sep)` for a separator of one byte (the parser splits at `"\n"`,
`" "` and `"\t"` only): the fields between the separators; never empty. -/
def Split (s : GoString) (sep : Nat) : List GoString :=
  splitAux sep s []

/-- `strings.Join(a, sep)`. -/
def Join : List GoString → GoString → GoString
  | [], _ => []
  | [x], _ => x
  | x :: y :: rest, sep => x ++ sep ++ Join (y :: rest) sep

/-- `strings.HasPrefix(s, p)`. -/
def HasPrefix (s p : GoString) : Bool :=
  p.isPrefixOf s

/-- `strings.TrimLeft(s, cutset)` for a cutset of ASCII bytes: every leading byte of
the cutset is removed. -/
def TrimLeft (s cutset : GoString) : GoString :=
  s.dropWhile (fun b => cutset.contains b)

/-- Position of the first byte `b` at or after position `i`. -/
def indexFrom (b : Nat) : GoString → Int → Int
  | [], _ => -1
  | c :: rest, i => if c = b then i else indexFrom b rest (i + 1)

/-- `strings.Index(s, sep)` for a separator of one byte: the position of its first
occurrence, `-1` when there is none. -/
def Index (s : GoString) (b : Nat) : Int :=
  indexFrom b s 0

end strings

/-- The slice expression `s[lo:hi]`; out-of-range bounds are a runtime failure. -/
def slice (s : GoString) (lo hi : Int) : Except RuntimeError GoString :=
  if 0 ≤ lo ∧ lo ≤ hi ∧ hi ≤ (s.length : Int) then
    .ok ((s.drop lo.toNat).take (hi.toNat - lo.toNat))
  else .error .sliceBounds

/-- The index expression `a[i]` on a slice of strings. -/
def index (a : List GoString) (i : Nat) : Except RuntimeError GoString :=
  match a.get? i with
  | some x => .ok x
  | none => .error .indexOutOfRange

/-! ## The records of package `contract` -/

/-- Modelled from the spec: the outcome constants of package `contract`, which is not
among the sources (spec §3: NoGoFiles, BuildFailure, NoTestFiles, NoTestFunctions,
Passed, Failed, Panicked). `Unset` is the outcome of a report nothing was written to. -/
inductive Outcome where
  | Unset
  | NoGoFiles
  | BuildFailure
  | NoTestFiles
  | NoTestFunctions
  | Passed
  | Failed
  | Panicked
  deriving DecidableEq, Repr

/-- Modelled from the spec: `contract.TestResult`, whose declaration is not among the
sources (spec §3, TestRecord: name, passed, skipped, elapsed seconds, raw lines,
error). -/
structure TestResult (F : Type) where
  TestName : GoString
  Passed : Bool
  Skipped : Bool
  Elapsed : F
  RawLines : List GoString
  Error : GoString
  deriving DecidableEq, Repr

/-- Modelled from the spec: `contract.PackageResult`, whose declaration is not among
the sources (spec §3, PackageReport: outcome, package name, elapsed seconds, coverage
percent, build output, error, test results). -/
structure PackageResult (F : Type) where
  PackageName : GoString
  Elapsed : F
  Coverage : F
  Outcome : Outcome
  BuildOutput : GoString
  Error : GoString
  TestResults : List (TestResult F)
  deriving DecidableEq, Repr

/-- Modelled from the spec: `contract.NewTestResult`, which is not among the sources
(spec §3: a record is created for the name on a test-start line; nothing else is
known about it yet). -/
def NewTestResult {F : Type} [Zero F] (testName : GoString) : TestResult F :=
  { TestName := testName, Passed := false, Skipped := false, Elapsed := 0,
    RawLines := [], Error := [] }

/-- The collaborators of the parser that are defined outside `packageParser.go`:
the line predicates and duration parsers of the package, its per-test parser
`parseTestOutput`, and `strconv.ParseFloat` (`none` when it reports an error). -/
structure Env (F : Type) where
  noGoFiles : GoString → Bool
  buildFailed : GoString → Bool
  noTestFiles : GoString → Bool
  noTestFunctions : GoString → Bool
  isNewTest : GoString → Bool
  isTestResult : GoString → Bool
  isPackageReport : GoString → Bool
  packageFailed : GoString → Bool
  packagePassed : GoString → Bool
  isCoverageSummary : GoString → Bool
  parseTestFunctionDuration : GoString → F
  parseDurationInSeconds : GoString → Nat → F
  parseTestOutput : TestResult F → TestResult F
  ParseFloat : GoString → Option F

/-! ## `packageParser.go` -/

/-- The regular expression `^=== RUN:? (.+)$` applied with `FindStringSubmatch`: the
whole match and the text of group 1, `none` (a nil slice) when the line does not
match. After `=== RUN` an optional colon is taken when one is there, then one space
is required, then at least one byte, none of them a newline. -/
def testNamePattern.FindStringSubmatch (line : GoString) : Option (List GoString) :=
  if strings.HasPrefix line (bytes "=== RUN") then
    let rest := line.drop 7
    let rest := match rest with
      | 0x3A :: r => r
      | r => r
    match rest with
    | 0x20 :: name =>
      if name ≠ [] ∧ strings.nl ∉ name then some [line, name] else none
    | _ => none
  else none

/-- The parser object. `tests` holds the registered records in registration order
and doubles as the heap: a `*contract.TestResult` is a position in it. `testMap` is
the name-keyed map as an association list, newest binding first. -/
structure outputParser (F : Type) where
  raw : GoString
  lines : List GoString
  result : PackageResult F
  tests : List (TestResult F)
  packageLines : List GoString
  line : GoString
  test : Option Nat
  testMap : List (GoString × Nat)

variable {F : Type}

/-- Map lookup `testMap[name]`: the pointer bound to `name`, `nil` when there is none. -/
def lookup (m : List (GoString × Nat)) (name : GoString) : Option Nat :=
  match m with
  | [] => none
  | (k, v) :: rest => if k = name then some v else lookup rest name

/-- Update through a pointer: the record at position `i` is replaced by `f` of it. -/
def modifyAt (ts : List (TestResult F)) (i : Nat) (f : TestResult F → TestResult F) :
    List (TestResult F) :=
  match ts, i with
  | [], _ => []
  | t :: rest, 0 => f t :: rest
  | t :: rest, i + 1 => t :: modifyAt rest i f

def newOutputParser (result : PackageResult F) (rawOutput : GoString) : outputParser F :=
  let raw := strings.TrimSpace rawOutput
  { raw := raw
    lines := strings.Split raw strings.nl
    result := result
    tests := []
    packageLines := []
    line := []
    test := none
    testMap := [] }

def recordFinalOutcome (self : outputParser F) (outcome : Outcome) : outputParser F :=
  { self with
    result := { self.result with
      Outcome := outcome
      BuildOutput := strings.Join self.lines [strings.nl] } }

def processNonTestOutput (env : Env F) (self : outputParser F) : outputParser F × Bool :=
  if env.noGoFiles self.line then
    (recordFinalOutcome self .NoGoFiles, true)
  else if env.buildFailed self.line then
    (recordFinalOutcome self .BuildFailure, true)
  else if env.noTestFiles self.line then
    (recordFinalOutcome self .NoTestFiles, true)
  else if env.noTestFunctions self.line then
    (recordFinalOutcome self .NoTestFunctions, true)
  else
    (self, false)

def registerTestFunction [Zero F] (self : outputParser F) :
    Except RuntimeError (outputParser F) :=
  match testNamePattern.FindStringSubmatch self.line with
  | none => .error .indexOutOfRange
  | some m =>
    match index m 1 with
    | .error e => .error e
    | .ok testName =>
      let t : TestResult F := NewTestResult testName
      let ptr := self.tests.length
      .ok { self with
        test := some ptr
        tests := self.tests ++ [t]
        testMap := (t.TestName, ptr) :: self.testMap }

def recordTestMetadata (env : Env F) (self : outputParser F) :
    Except RuntimeError (outputParser F) :=
  match index (strings.Split self.line strings.space) 2 with
  | .error e => .error e
  | .ok testName =>
    let self := { self with test := lookup self.testMap testName }
    match self.test with
    | none => .error .nilDereference
    | some ptr =>
      .ok { self with
        tests := modifyAt self.tests ptr (fun t =>
          { t with
            Passed := !strings.HasPrefix self.line (bytes "--- FAIL: ")
            Skipped := strings.HasPrefix self.line (bytes "--- SKIP: ")
            Elapsed := env.parseTestFunctionDuration self.line }) }

def recordTestingOutcome (env : Env F) (self : outputParser F) (outcome : Outcome) :
    Except RuntimeError (outputParser F) :=
  let fields := strings.Split self.line strings.tab
  match index fields 1 with
  | .error e => .error e
  | .ok f1 =>
    match index fields 2 with
    | .error e => .error e
    | .ok f2 =>
      .ok { self with
        result := { self.result with
          Outcome := outcome
          PackageName := strings.TrimSpace f1
          Elapsed := env.parseDurationInSeconds f2 3 } }

def recordCoverageSummary [One F] [Neg F] (env : Env F) (self : outputParser F)
    (summary : GoString) : Except RuntimeError (outputParser F) :=
  let start : Int := (bytes "coverage: ").length
  let stop := strings.Index summary strings.percent
  match slice summary start stop with
  | .error e => .error e
  | .ok value =>
    match env.ParseFloat value with
    | none => .ok { self with result := { self.result with Coverage := -1 } }
    | some parsed => .ok { self with result := { self.result with Coverage := parsed } }

def recordPackageMetadata [One F] [Neg F] (env : Env F) (self : outputParser F) :
    Except RuntimeError (outputParser F) :=
  if env.packageFailed self.line then
    recordTestingOutcome env self .Failed
  else if env.packagePassed self.line then
    recordTestingOutcome env self .Passed
  else if env.isCoverageSummary self.line then
    recordCoverageSummary env self self.line
  else .ok self

def saveLineForParsingLater (self : outputParser F) : outputParser F :=
  let self := { self with line := strings.TrimLeft self.line [strings.tab] }
  match self.test with
  | none => { self with packageLines := self.packageLines ++ [self.line] }
  | some ptr =>
    { self with
      tests := modifyAt self.tests ptr (fun t =>
        { t with RawLines := t.RawLines ++ [self.line] }) }

def processTestOutput [Zero F] [One F] [Neg F] (env : Env F) (self : outputParser F) :
    Except RuntimeError (outputParser F) :=
  if env.isNewTest self.line then
    registerTestFunction self
  else if env.isTestResult self.line then
    recordTestMetadata env self
  else if env.isPackageReport self.line then
    recordPackageMetadata env self
  else
    .ok (saveLineForParsingLater self)

/-- The loop of `separateTestFunctionsAndMetadata` over the lines still to read. -/
def separateLoop [Zero F] [One F] [Neg F] (env : Env F) :
    List GoString → outputParser F → Except RuntimeError (outputParser F)
  | [], self => .ok self
  | l :: rest, self =>
    let self := { self with line := l }
    match processNonTestOutput env self with
    | (self, true) => .ok self
    | (self, false) =>
      match processTestOutput env self with
      | .error e => .error e
      | .ok self => separateLoop env rest self

def separateTestFunctionsAndMetadata [Zero F] [One F] [Neg F] (env : Env F)
    (self : outputParser F) : Except RuntimeError (outputParser F) :=
  separateLoop env self.lines self

/-- The loop of `parseEachTestFunction` over the registered records, `ptr` being the
position of the first of `ts` in `self.tests`. -/
def parseEachLoop (env : Env F) : List (TestResult F) → Nat → outputParser F → outputParser F
  | [], _, self => self
  | t :: rest, ptr, self =>
    let t := env.parseTestOutput t
    let self := { self with test := some ptr }
    let self :=
      if t.Error ≠ [] then
        { self with result := { self.result with Outcome := .Panicked } }
      else self
    let t := { t with RawLines := [] }
    let self := { self with
      tests := modifyAt self.tests ptr (fun _ => t)
      result := { self.result with TestResults := self.result.TestResults ++ [t] } }
    parseEachLoop env rest (ptr + 1) self

def parseEachTestFunction (env : Env F) (self : outputParser F) : outputParser F :=
  parseEachLoop env self.tests 0 self

def recoverFromInitPanic (self : outputParser F) : outputParser F :=
  let panicked :=
    if self.tests.length = 0 ∧ self.packageLines.length > 0 then
      self.packageLines.any (fun line => strings.HasPrefix line (bytes "panic: "))
    else false
  if panicked then
    { self with
      result := { self.result with
        Outcome := .Panicked
        Error := strings.Join self.packageLines [strings.nl] } }
  else self

def parse [Zero F] [One F] [Neg F] (env : Env F) (self : outputParser F) :
    Except RuntimeError (outputParser F) :=
  match separateTestFunctionsAndMetadata env self with
  | .error e => .error e
  | .ok self => .ok (recoverFromInitPanic (parseEachTestFunction env self))

/-- The entry point: the report `result` as the parse of `rawOutput` leaves it, or the
runtime failure that aborts the parse. -/
def ParsePackageResults [Zero F] [One F] [Neg F] (env : Env F) (result : PackageResult F)
    (rawOutput : GoString) : Except RuntimeError (PackageResult F) :=
  match parse env (newOutputParser result rawOutput) with
  | .error e => .error e
  | .ok self => .ok self.result

/-! ## Notions used to state the theorems -/

/-- The outcome `processNonTestOutput` records for a line: that of the first terminal
predicate the line satisfies, in the order in which the predicates are tried; `none`
when the line satisfies none of them. -/
def terminalOutcome (env : Env F) (line : GoString) : Option Outcome :=
  if env.noGoFiles line then some .NoGoFiles
  else if env.buildFailed line then some .BuildFailure
  else if env.noTestFiles line then some .NoTestFiles
  else if env.noTestFunctions line then some .NoTestFunctions
  else none

/-- The record pass 2 appends to the report for the registered record `t`. -/
def finalize (env : Env F) (t : TestResult F) : TestResult F :=
  { env.parseTestOutput t with RawLines := [] }

/-- The per-test parser reports an error for the registered record `t`. -/
def hasError (env : Env F) (t : TestResult F) : Bool :=
  decide ((env.parseTestOutput t).Error ≠ [])

/-- The line starts with the panic marker. -/
def isPanicLine (line : GoString) : Bool :=
  strings.HasPrefix line (bytes "panic: ")

/-- The test of `recoverFromInitPanic`: no test is registered and some package-scope
line starts with the panic marker. -/
def initPanic (p : outputParser F) : Bool :=
  p.tests.isEmpty && p.packageLines.any isPanicLine

/-- The name on a test-start line: group 1 of `testNamePattern`. -/
def startName (line : GoString) : Option GoString :=
  match testNamePattern.FindStringSubmatch line with
  | some m => m.get? 1
  | none => none

/-- The names on the test-start lines pass 1 reads, in order: those of the lines
classified as test-start that come before the first terminal line. -/
def startNames (env : Env F) : List GoString → List GoString
  | [] => []
  | l :: rest =>
    match terminalOutcome env l with
    | some _ => []
    | none =>
      if env.isNewTest l then (startName l).toList ++ startNames env rest
      else startNames env rest

/-- The records a parse has added to a report that held `n` records before. -/
def added (r : PackageResult F) (n : Nat) : List (TestResult F) :=
  r.TestResults.drop n

/-- The report with its build output blanked. -/
def withoutBuildOutput (r : PackageResult F) : PackageResult F :=
  { r with BuildOutput := [] }

/-- A package-report line that `recordPackageMetadata` processes without a runtime
failure: a failure or success report has at least three tab-separated fields, a
coverage summary has its first `%` at or after the end of the `coverage: ` marker. -/
def reportWellFormed (env : Env F) (l : GoString) : Bool :=
  if env.packageFailed l || env.packagePassed l then
    decide (3 ≤ (strings.Split l strings.tab).length)
  else if env.isCoverageSummary l then
    decide (((bytes "coverage: ").length : Int) ≤ strings.Index l strings.percent)
  else true

/-- The lines that are not package-report lines, each without its leading tabs. -/
def plainLines (env : Env F) (ls : List GoString) : List GoString :=
  (ls.filter (fun l => !env.isPackageReport l)).map (fun l => strings.TrimLeft l [strings.tab])

/-- The outcome of the report after a step of pass 1 on the non-terminal line `l`, `oc`
being the outcome before: only a failure or success package report writes one. -/
def stepOutcome (env : Env F) (l : GoString) (oc : Outcome) : Outcome :=
  if env.isNewTest l then oc
  else if env.isTestResult l then oc
  else if env.isPackageReport l then
    if env.packageFailed l then .Failed
    else if env.packagePassed l then .Passed
    else oc
  else oc

/-- The outcome pass 1 leaves in the report after the lines `ls`, `oc` being the
outcome before: the last outcome written by a failure report, a success report or
the terminal line that ends the pass, `oc` when there is no such line. -/
def lastOutcome (env : Env F) : List GoString → Outcome → Outcome
  | [], oc => oc
  | l :: rest, oc =>
    match terminalOutcome env l with
    | some t => t
    | none => lastOutcome env rest (stepOutcome env l oc)

/-- The number of test-start lines pass 1 reads: the lines classified as test-start
that come before the first terminal line. -/
def countStarts (env : Env F) : List GoString → Nat
  | [] => 0
  | l :: rest =>
    match terminalOutcome env l with
    | some _ => 0
    | none => (if env.isNewTest l then 1 else 0) + countStarts env rest

/-- The position in `ts` of the last record named `n`: the record of that name that was
registered most recently. -/
def lastNamed (ts : List (TestResult F)) (n : GoString) : Option Nat :=
  match ts with
  | [] => none
  | t :: rest =>
    match lastNamed rest n with
    | some i => some (i + 1)
    | none => if t.TestName = n then some 0 else none

/-- The name-keyed map binds every name to the record of that name registered most
recently, and no other name. -/
def mapAgrees (p : outputParser F) : Prop :=
  ∀ n, lookup p.testMap n = lastNamed p.tests n

/-- The parser state without the text being parsed: `raw`, `lines` and the build output
of the report are blanked. -/
def eraseText (p : outputParser F) : outputParser F :=
  { p with raw := [], lines := [], result := withoutBuildOutput p.result }

/-! ## A concrete environment

An instance of `Env` that follows the rules of the `go test` output format the parser
is written for, used to run the parser on concrete texts. Numbers are decimals as
written. -/

namespace Sample

/-- The decimal number `mantissa / 10 ^ scale`. -/
structure Decimal where
  mantissa : Int
  scale : Nat
  deriving DecidableEq, Repr

instance : Zero Decimal := ⟨⟨0, 0⟩⟩
instance : One Decimal := ⟨⟨1, 0⟩⟩
instance : Neg Decimal := ⟨fun d => ⟨-d.mantissa, d.scale⟩⟩

/-- `strings.Contains(s, sub)`. -/
def Contains : GoString → GoString → Bool
  | [], sub => sub.isEmpty
  | b :: rest, sub => sub.isPrefixOf (b :: rest) || Contains rest sub

/-- Value of a run of decimal digits read after `acc`; `none` on any other byte. -/
def digits : GoString → Nat → Option Nat
  | [], acc => some acc
  | b :: rest, acc => if 0x30 ≤ b ∧ b ≤ 0x39 then digits rest (acc * 10 + (b - 0x30)) else none

/-- The number written `int.frac` or `int` in decimal digits. -/
def decimal (s : GoString) : Option Decimal :=
  match strings.Split s 0x2E with
  | [i] => if i = [] then none else (digits i 0).map (fun n => ⟨n, 0⟩)
  | [i, f] =>
    if i = [] ∨ f = [] then none
    else (digits (i ++ f) 0).map (fun n => ⟨n, f.length⟩)
  | _ => none

/-- Seconds of a duration written `<decimal>s`, `0` when it is not of that form. -/
def seconds (s : GoString) : Decimal :=
  match s.reverse with
  | 0x73 :: r => (decimal r.reverse).getD 0
  | _ => 0

/-- Per-test parser: a test whose raw lines contain a line starting with `panic: `
gets these lines as its error; any other test is returned as it is. -/
def parseTestOutput (t : TestResult Decimal) : TestResult Decimal :=
  if t.RawLines.any (fun l => strings.HasPrefix l (bytes "panic: ")) then
    { t with Error := strings.Join t.RawLines [strings.nl] }
  else t

/-- The line without its first byte `b`: `strings.Replace(line, "b", "", 1)`. -/
def removeFirst (b : Nat) : GoString → GoString
  | [] => []
  | c :: rest => if c = b then rest else c :: removeFirst b rest

/-- Duration of a test-result line: the fourth space-separated field of the line
without its first `(`, followed by `s`, read as seconds. This reads the form
`--- PASS: TestA (0.01 seconds)`; on the form `--- PASS: TestA (0.01s)` the field is
`0.01s)`, which is no duration, and the value is `0`. A missing field gives `0`. -/
def testFunctionDuration (l : GoString) : Decimal :=
  match (strings.Split (removeFirst 0x28 l) strings.space).get? 3 with
  | some f => seconds (f ++ bytes "s")
  | none => 0

/-- A success package report starts with `ok  ` followed by a tab. -/
def packagePassed (l : GoString) : Bool :=
  strings.HasPrefix l (bytes "ok  \t")

/-- A coverage summary starts with `coverage: `. -/
def isCoverageSummary (l : GoString) : Bool :=
  strings.HasPrefix l (bytes "coverage: ")

/-- The sample environment. -/
def env : Env Decimal where
  noGoFiles l := Contains l (bytes "no buildable Go source files")
  buildFailed l := strings.HasPrefix l (bytes "# ")
  noTestFiles l := strings.HasPrefix l (bytes "?") && Contains l (bytes "[no test files]")
  noTestFunctions l := l == bytes "testing: warning: no tests to run"
  isNewTest l := strings.HasPrefix l (bytes "=== RUN")
  isTestResult l := strings.HasPrefix l (bytes "--- ")
  isPackageReport l :=
    strings.HasPrefix l (bytes "FAIL") || strings.HasPrefix l (bytes "exit status") ||
    strings.HasPrefix l (bytes "PASS") || isCoverageSummary l || packagePassed l
  packageFailed l := strings.HasPrefix l (bytes "FAIL\t")
  packagePassed := packagePassed
  isCoverageSummary := isCoverageSummary
  parseTestFunctionDuration := testFunctionDuration
  parseDurationInSeconds d _ := seconds d
  parseTestOutput := parseTestOutput
  ParseFloat := decimal

/-- A report nothing has been written to. -/
def fresh : PackageResult Decimal :=
  { PackageName := [], Elapsed := 0, Coverage := 0, Outcome := .Unset, BuildOutput := [],
    Error := [], TestResults := [] }

/-- The record of `TestA` after its result line `--- SKIP: TestA (0.00s)`. -/
def skippedTestA : TestResult Decimal :=
  { TestName := bytes "TestA", Passed := true, Skipped := true, Elapsed := 0,
    RawLines := [], Error := [] }

/-- The record of `TestA` as its start line registers it. -/
def newTestA : TestResult Decimal :=
  { TestName := bytes "TestA", Passed := false, Skipped := false, Elapsed := 0,
    RawLines := [], Error := [] }

/-- The record of `TestA` after its result line `--- PASS: TestA (0.01s)`. -/
def passedTestA : TestResult Decimal :=
  { TestName := bytes "TestA", Passed := true, Skipped := false, Elapsed := 0,
    RawLines := [], Error := [] }

/-- A parser that has registered nothing yet and is reading the line `l`. -/
def atLine (l : GoString) : outputParser Decimal :=
  { newOutputParser fresh l with line := l }

end Sample

/-! ## Lemmas on the string functions -/

theorem splitAux_ne_nil (sep : Nat) (s cur : GoString) : strings.splitAux sep s cur ≠ [] := by
  induction s generalizing cur with
  | nil => simp [strings.splitAux]
  | cons b rest ih =>
    unfold strings.splitAux
    split
    · simp
    · exact ih _

theorem Join_cons_cons (x y : GoString) (rest : List GoString) (sep : GoString) :
    strings.Join (x :: y :: rest) sep = x ++ sep ++ strings.Join (y :: rest) sep := by
  simp [strings.Join]

theorem Join_splitAux (sep : Nat) (s cur : GoString) :
    strings.Join (strings.splitAux sep s cur) [sep] = cur ++ s := by
  induction s generalizing cur with
  | nil => simp [strings.splitAux, strings.Join]
  | cons b rest ih =>
    unfold strings.splitAux
    split
    · rename_i hb
      have hne := splitAux_ne_nil sep rest []
      have hrest := ih []
      cases hxs : strings.splitAux sep rest [] with
      | nil => exact absurd hxs hne
      | cons y ys =>
        rw [hxs] at hrest
        rw [Join_cons_cons, hrest, hb]
        simp
    · rw [ih]
      simp

/-- Joining the fields of a split with the separator gives the text back. -/
theorem Join_Split (s : GoString) (sep : Nat) :
    strings.Join (strings.Split s sep) [sep] = s := by
  simp [strings.Split, Join_splitAux]

/-! ## Lemmas on the two passes -/

theorem indexFrom_append (b : Nat) (pre rest : GoString) (i : Int) (h : b ∉ pre) :
    strings.indexFrom b (pre ++ b :: rest) i = i + pre.length := by
  induction pre generalizing i with
  | nil => simp [strings.indexFrom]
  | cons c cs ih =>
    have hc : c ≠ b := fun hcb => h (by simp [hcb])
    have hcs : b ∉ cs := fun hm => h (by simp [hm])
    have hstep : strings.indexFrom b (c :: cs ++ b :: rest) i =
        strings.indexFrom b (cs ++ b :: rest) (i + 1) := by
      simp [strings.indexFrom, hc]
    rw [hstep, ih (i + 1) hcs, List.length_cons]
    push_cast
    ring

theorem slice_middle (pre v rest : GoString) :
    slice (pre ++ v ++ rest) (pre.length : Int) ((pre.length : Int) + v.length) = .ok v := by
  unfold slice
  have hcond : (0 : Int) ≤ pre.length ∧ (pre.length : Int) ≤ (pre.length : Int) + v.length ∧
      (pre.length : Int) + v.length ≤ ((pre ++ v ++ rest).length : Int) := by
    refine ⟨by positivity, by linarith [Int.natCast_nonneg v.length], ?_⟩
    simp only [List.length_append]
    push_cast
    linarith [Int.natCast_nonneg rest.length]
  rw [if_pos hcond]
  have h1 : ((pre.length : Int) + v.length).toNat = pre.length + v.length := by
    rw [← Int.natCast_add, Int.toNat_natCast]
  simp [h1, List.append_assoc]

theorem modifyAt_append (ts rest : List (TestResult F)) (t : TestResult F)
    (f : TestResult F → TestResult F) :
    modifyAt (ts ++ t :: rest) ts.length f = ts ++ f t :: rest := by
  induction ts with
  | nil => simp [modifyAt]
  | cons x xs ih => simp [modifyAt, ih]

theorem FindStringSubmatch_run (a : GoString) (hne : a ≠ []) (hnl : strings.nl ∉ a) :
    testNamePattern.FindStringSubmatch (bytes "=== RUN " ++ a) =
      some [bytes "=== RUN " ++ a, a] := by
  have hb : bytes "=== RUN " = [61, 61, 61, 32, 82, 85, 78, 32] := by decide
  have hb2 : bytes "=== RUN" = [61, 61, 61, 32, 82, 85, 78] := by decide
  simp [testNamePattern.FindStringSubmatch, hb, hb2, strings.HasPrefix, hne, hnl]

theorem indexFrom_le (b : Nat) (s : GoString) (i : Int) (hi : 0 ≤ i) :
    strings.indexFrom b s i ≤ i + s.length := by
  induction s generalizing i with
  | nil => simp only [strings.indexFrom, List.length_nil]; omega
  | cons c cs ih =>
    unfold strings.indexFrom
    split
    · simp only [List.length_cons]; omega
    · have := ih (i + 1) (by omega)
      simp only [List.length_cons]
      push_cast
      omega

theorem slice_ok (s : GoString) (lo : Nat) (h : (lo : Int) ≤ strings.Index s strings.percent) :
    ∃ v, slice s lo (strings.Index s strings.percent) = .ok v := by
  have hle := indexFrom_le strings.percent s 0 (le_refl 0)
  unfold slice
  have hcond : (0 : Int) ≤ lo ∧ (lo : Int) ≤ strings.Index s strings.percent ∧
      strings.Index s strings.percent ≤ (s.length : Int) := by
    refine ⟨by positivity, h, ?_⟩
    unfold strings.Index
    omega
  rw [if_pos hcond]
  exact ⟨_, rfl⟩

theorem index_ok (a : List GoString) (i : Nat) (h : i < a.length) :
    ∃ x, index a i = .ok x := by
  unfold index
  have : a.get? i = some (a.get ⟨i, h⟩) := List.get?_eq_get h
  rw [this]
  exact ⟨_, rfl⟩

/-- `TrimLeft` with the cutset `"\t"` removes the whole run of leading tabs. -/
theorem TrimLeft_tabs (k : Nat) (rest : GoString) (hrest : rest.head? ≠ some strings.tab) :
    strings.TrimLeft (List.replicate k strings.tab ++ rest) [strings.tab] = rest := by
  unfold strings.TrimLeft
  induction k with
  | zero =>
    cases rest with
    | nil => rfl
    | cons b bs =>
      have hb : b ≠ strings.tab := fun h => hrest (by simp [h])
      simp [List.dropWhile, hb]
  | succ k ih =>
    simp only [List.replicate_succ, List.cons_append, List.dropWhile]
    simpa using ih

theorem splitAux_append (sep : Nat) (pre rest cur : GoString) (h : sep ∉ pre) :
    strings.splitAux sep (pre ++ sep :: rest) cur = (cur ++ pre) :: strings.splitAux sep rest [] := by
  induction pre generalizing cur with
  | nil => simp [strings.splitAux]
  | cons c cs ih =>
    have hc : c ≠ sep := fun hcs => h (by simp [hcs])
    have hcs : sep ∉ cs := fun hm => h (by simp [hm])
    have hstep : strings.splitAux sep (c :: cs ++ sep :: rest) cur =
        strings.splitAux sep (cs ++ sep :: rest) (cur ++ [c]) := by
      simp [strings.splitAux, hc]
    rw [hstep, ih _ hcs]
    simp

/-- The third space-separated token of the result line of a test whose name has no
space is that name. -/
theorem result_line_token (n : GoString) (hsp : strings.space ∉ n) :
    index (strings.Split (bytes "--- PASS: " ++ n ++ bytes " (0.01s)") strings.space) 2 =
      .ok n := by
  have hb1 : bytes "--- PASS: " = [45, 45, 45] ++ strings.space :: ([80, 65, 83, 83, 58] ++
      [strings.space]) := by decide
  have hb2 : bytes " (0.01s)" = strings.space :: [40, 48, 46, 48, 49, 115, 41] := by decide
  have hline : bytes "--- PASS: " ++ n ++ bytes " (0.01s)" =
      [45, 45, 45] ++ strings.space :: ([80, 65, 83, 83, 58] ++ strings.space ::
        (n ++ strings.space :: [40, 48, 46, 48, 49, 115, 41])) := by
    rw [hb1, hb2]
    simp
  rw [hline]
  unfold strings.Split
  rw [splitAux_append _ _ _ _ (by decide), splitAux_append _ _ _ _ (by decide),
    splitAux_append _ _ _ _ hsp]
  rfl

theorem result_line_not_fail_or_skip (n : GoString) :
    strings.HasPrefix (bytes "--- PASS: " ++ n ++ bytes " (0.01s)") (bytes "--- FAIL: ") = false ∧
      strings.HasPrefix (bytes "--- PASS: " ++ n ++ bytes " (0.01s)") (bytes "--- SKIP: ") =
        false := by
  have hb1 : bytes "--- PASS: " = [45, 45, 45, 32, 80, 65, 83, 83, 58, 32] := by decide
  have hf : bytes "--- FAIL: " = [45, 45, 45, 32, 70, 65, 73, 76, 58, 32] := by decide
  have hs : bytes "--- SKIP: " = [45, 45, 45, 32, 83, 75, 73, 80, 58, 32] := by decide
  rw [hb1, hf, hs]
  simp [strings.HasPrefix, List.isPrefixOf]

theorem modifyAt_get? (ts : List (TestResult F)) (i : Nat) (f : TestResult F → TestResult F) :
    (modifyAt ts i f).get? i = (ts.get? i).map f := by
  induction ts generalizing i with
  | nil => simp [modifyAt]
  | cons t rest ih =>
    cases i with
    | zero => simp [modifyAt]
    | succ i => simpa [modifyAt] using ih i

theorem modifyAt_get?_ne (ts : List (TestResult F)) (i j : Nat)
    (f : TestResult F → TestResult F) (h : j ≠ i) :
    (modifyAt ts i f).get? j = ts.get? j := by
  induction ts generalizing i j with
  | nil => simp [modifyAt]
  | cons t rest ih =>
    cases i with
    | zero =>
      cases j with
      | zero => exact absurd rfl h
      | succ j => simp [modifyAt]
    | succ i =>
      cases j with
      | zero => simp [modifyAt]
      | succ j => simpa [modifyAt] using ih i j (fun hji => h (by rw [hji]))

/-- No line has both the prefix `--- FAIL: ` and the prefix `--- SKIP: `. -/
theorem not_fail_and_skip (l : GoString) :
    ¬ (strings.HasPrefix l (bytes "--- FAIL: ") = true ∧
      strings.HasPrefix l (bytes "--- SKIP: ") = true) := by
  rintro ⟨hf, hs⟩
  unfold strings.HasPrefix at hf hs
  rw [List.isPrefixOf_iff_prefix] at hf hs
  obtain ⟨r1, h1⟩ := hf
  obtain ⟨r2, h2⟩ := hs
  have heq : bytes "--- FAIL: " ++ r1 = bytes "--- SKIP: " ++ r2 := h1.trans h2.symm
  have hlen : (bytes "--- FAIL: ").length = (bytes "--- SKIP: ").length := by decide
  have := (List.append_inj heq hlen).1
  exact absurd this (by decide)

theorem lastNamed_append (ts : List (TestResult F)) (t : TestResult F) (n : GoString) :
    lastNamed (ts ++ [t]) n = if t.TestName = n then some ts.length else lastNamed ts n := by
  induction ts with
  | nil => simp [lastNamed]
  | cons x xs ih =>
    have hstep : lastNamed (x :: xs ++ [t]) n =
        match lastNamed (xs ++ [t]) n with
        | some i => some (i + 1)
        | none => if x.TestName = n then some 0 else none := rfl
    rw [hstep, ih]
    by_cases h : t.TestName = n
    · simp [h]
    · simp only [h, if_false]
      rfl

theorem lastNamed_modifyAt (ts : List (TestResult F)) (i : Nat)
    (f : TestResult F → TestResult F) (n : GoString) (hf : ∀ t, (f t).TestName = t.TestName) :
    lastNamed (modifyAt ts i f) n = lastNamed ts n := by
  induction ts generalizing i with
  | nil => simp [modifyAt]
  | cons x xs ih =>
    cases i with
    | zero => simp [modifyAt, lastNamed, hf]
    | succ i => simp [modifyAt, lastNamed, ih]

/-- The position `lastNamed` gives holds a record named `n`, and no later one does. -/
theorem lastNamed_some (ts : List (TestResult F)) (n : GoString) (i : Nat)
    (h : lastNamed ts n = some i) :
    (∃ t, ts.get? i = some t ∧ t.TestName = n) ∧
      ∀ j t', i < j → ts.get? j = some t' → t'.TestName ≠ n := by
  induction ts generalizing i with
  | nil => simp [lastNamed] at h
  | cons x xs ih =>
    simp only [lastNamed] at h
    cases hl : lastNamed xs n with
    | some k =>
      rw [hl] at h
      simp only [Option.some.injEq] at h
      subst h
      obtain ⟨⟨t, ht, htn⟩, hlater⟩ := ih k hl
      refine ⟨⟨t, by simpa using ht, htn⟩, ?_⟩
      intro j t' hj hget
      cases j with
      | zero => omega
      | succ j => exact hlater j t' (by omega) (by simpa using hget)
    | none =>
      rw [hl] at h
      by_cases hx : x.TestName = n
      · simp only [hx, if_true, Option.some.injEq] at h
        subst h
        refine ⟨⟨x, by simp, hx⟩, ?_⟩
        intro j t' hj hget
        cases j with
        | zero => omega
        | succ j =>
          intro hname
          have hnone : ∀ (ys : List (TestResult F)) (m : Nat) (y : TestResult F),
              lastNamed ys n = none → ys.get? m = some y → y.TestName ≠ n := by
            intro ys
            induction ys with
            | nil => intro m y _ hy; simp at hy
            | cons z zs ihz =>
              intro m y hnone hy
              simp only [lastNamed] at hnone
              cases hz : lastNamed zs n with
              | some k => rw [hz] at hnone; simp at hnone
              | none =>
                rw [hz] at hnone
                cases m with
                | zero =>
                  simp only [List.get?_cons_zero, Option.some.injEq] at hy
                  subst hy
                  intro hyn
                  simp [hyn] at hnone
                | succ m => exact ihz m y hz (by simpa using hy)
          exact hnone xs j t' hl (by simpa using hget) hname
      · simp [hx] at h

/-- A name borne by a registered record has a last record. -/
theorem lastNamed_of_mem (ts : List (TestResult F)) (n : GoString)
    (h : n ∈ ts.map (fun t => t.TestName)) : ∃ i, lastNamed ts n = some i := by
  induction ts with
  | nil => simp at h
  | cons x xs ih =>
    simp only [lastNamed]
    cases hl : lastNamed xs n with
    | some k => exact ⟨k + 1, rfl⟩
    | none =>
      simp only [List.map_cons, List.mem_cons] at h
      rcases h with h | h
      · exact ⟨0, by simp [h]⟩
      · obtain ⟨i, hi⟩ := ih h
        rw [hl] at hi
        cases hi

theorem processNonTestOutput_eq (env : Env F) (self : outputParser F) :
    processNonTestOutput env self =
      match terminalOutcome env self.line with
      | some oc => (recordFinalOutcome self oc, true)
      | none => (self, false) := by
  unfold processNonTestOutput terminalOutcome
  split_ifs <;> rfl

theorem modifyAt_length (ts : List (TestResult F)) (i : Nat) (f : TestResult F → TestResult F) :
    (modifyAt ts i f).length = ts.length := by
  induction ts generalizing i with
  | nil => simp [modifyAt]
  | cons t rest ih =>
    cases i with
    | zero => simp [modifyAt]
    | succ i => simp [modifyAt, ih]

theorem parseEachLoop_result (env : Env F) (ts : List (TestResult F)) (ptr : Nat)
    (self : outputParser F) :
    (parseEachLoop env ts ptr self).result =
      { self.result with
        Outcome := if ts.any (hasError env) then .Panicked else self.result.Outcome
        TestResults := self.result.TestResults ++ ts.map (finalize env) } := by
  induction ts generalizing ptr self with
  | nil => simp [parseEachLoop]
  | cons t rest ih =>
    unfold parseEachLoop
    simp only [ih]
    by_cases h : (env.parseTestOutput t).Error = [] <;>
      simp [h, hasError, finalize, List.append_assoc]

theorem parseEachLoop_packageLines (env : Env F) (ts : List (TestResult F)) (ptr : Nat)
    (self : outputParser F) :
    (parseEachLoop env ts ptr self).packageLines = self.packageLines := by
  induction ts generalizing ptr self with
  | nil => simp [parseEachLoop]
  | cons t rest ih =>
    unfold parseEachLoop
    simp only [ih]
    split <;> rfl

theorem parseEachLoop_tests_length (env : Env F) (ts : List (TestResult F)) (ptr : Nat)
    (self : outputParser F) :
    (parseEachLoop env ts ptr self).tests.length = self.tests.length := by
  induction ts generalizing ptr self with
  | nil => simp [parseEachLoop]
  | cons t rest ih =>
    unfold parseEachLoop
    simp only [ih]
    split <;> simp [modifyAt_length]

theorem recoverFromInitPanic_result (q : outputParser F) :
    (recoverFromInitPanic q).result =
      { q.result with
        Outcome := if initPanic q then .Panicked else q.result.Outcome
        Error := if initPanic q then strings.Join q.packageLines [strings.nl] else q.result.Error } := by
  have hcond : (if q.tests.length = 0 ∧ q.packageLines.length > 0 then
        q.packageLines.any (fun line => strings.HasPrefix line (bytes "panic: "))
        else false) = initPanic q := by
    unfold initPanic isPanicLine
    cases ht : q.tests with
    | nil =>
      cases hp : q.packageLines with
      | nil => simp
      | cons l ls => simp
    | cons t ts => simp
  unfold recoverFromInitPanic
  simp only [hcond]
  cases initPanic q <;> simp

theorem initPanic_parseEachLoop (env : Env F) (p : outputParser F) :
    initPanic (parseEachLoop env p.tests 0 p) = initPanic p := by
  have hlen := parseEachLoop_tests_length env p.tests 0 p
  have hpl := parseEachLoop_packageLines env p.tests 0 p
  unfold initPanic
  rw [hpl]
  congr 1
  cases h1 : (parseEachLoop env p.tests 0 p).tests with
  | nil =>
    rw [h1] at hlen
    have : p.tests = [] := List.length_eq_zero.mp hlen.symm
    simp [this]
  | cons a as =>
    rw [h1] at hlen
    cases h2 : p.tests with
    | nil => rw [h2] at hlen; simp at hlen
    | cons b bs => simp

/-- The report the last two steps of `parse` build from the state pass 1 leaves. -/
theorem final_result (env : Env F) (p : outputParser F) :
    (recoverFromInitPanic (parseEachTestFunction env p)).result =
      { p.result with
        Outcome :=
          if initPanic p then .Panicked
          else if p.tests.any (hasError env) then .Panicked
          else p.result.Outcome
        Error :=
          if initPanic p then strings.Join p.packageLines [strings.nl] else p.result.Error
        TestResults := p.result.TestResults ++ p.tests.map (finalize env) } := by
  rw [recoverFromInitPanic_result]
  unfold parseEachTestFunction
  rw [initPanic_parseEachLoop, parseEachLoop_packageLines, parseEachLoop_result]

theorem modifyAt_map {β : Type} (g : TestResult F → β) (ts : List (TestResult F)) (i : Nat)
    (f : TestResult F → TestResult F) (hf : ∀ t, g (f t) = g t) :
    (modifyAt ts i f).map g = ts.map g := by
  induction ts generalizing i with
  | nil => simp [modifyAt]
  | cons t rest ih =>
    cases i with
    | zero => simp [modifyAt, hf]
    | succ i => simp [modifyAt, ih]

theorem eraseText_recordFinalOutcome (s : outputParser F) (l : GoString) (oc : Outcome) :
    eraseText (recordFinalOutcome { s with line := l } oc) =
      { eraseText s with
        line := l
        result := { (eraseText s).result with Outcome := oc } } := by
  rfl

/-- The report built by the last two steps depends on the text being parsed through
its build output only. -/
theorem final_result_eraseText (env : Env F) (p q : outputParser F)
    (h : eraseText p = eraseText q) :
    withoutBuildOutput (recoverFromInitPanic (parseEachTestFunction env p)).result =
      withoutBuildOutput (recoverFromInitPanic (parseEachTestFunction env q)).result := by
  cases p with
  | mk raw lines result tests packageLines line test testMap =>
    cases q with
    | mk raw2 lines2 result2 tests2 packageLines2 line2 test2 testMap2 =>
      cases result with
      | mk pn el cov oc bo er trs =>
        cases result2 with
        | mk pn2 el2 cov2 oc2 bo2 er2 trs2 =>
          simp only [eraseText, withoutBuildOutput, outputParser.mk.injEq,
            PackageResult.mk.injEq, true_and] at h
          obtain ⟨⟨hpn, hel, hcov, hoc, her, htrs⟩, hts, hpl, -, -, -⟩ := h
          subst hpn hel hcov hoc her htrs hts hpl
          simp only [final_result, withoutBuildOutput, initPanic]

/-- A well-formed package-report line is processed without failure and changes the
report only. -/
theorem recordPackageMetadata_ok [One F] [Neg F] (env : Env F) (self : outputParser F)
    (h : reportWellFormed env self.line = true) :
    ∃ r, recordPackageMetadata env self = .ok { self with result := r } := by
  unfold reportWellFormed at h
  unfold recordPackageMetadata
  by_cases hf : env.packageFailed self.line = true
  · simp only [hf, Bool.true_or, if_true, decide_eq_true_eq] at h
    obtain ⟨f1, h1⟩ := index_ok (strings.Split self.line strings.tab) 1 (by omega)
    obtain ⟨f2, h2⟩ := index_ok (strings.Split self.line strings.tab) 2 (by omega)
    simp only [hf, if_true, recordTestingOutcome, h1, h2]
    exact ⟨_, rfl⟩
  · by_cases hp : env.packagePassed self.line = true
    · simp only [hp, Bool.or_true, if_true, decide_eq_true_eq] at h
      obtain ⟨f1, h1⟩ := index_ok (strings.Split self.line strings.tab) 1 (by omega)
      obtain ⟨f2, h2⟩ := index_ok (strings.Split self.line strings.tab) 2 (by omega)
      simp only [hf, hp, if_true, if_false, recordTestingOutcome, h1, h2]
      exact ⟨_, rfl⟩
    · by_cases hc : env.isCoverageSummary self.line = true
      · simp only [hf, hp, hc, Bool.or_self, Bool.false_eq_true, if_false, if_true,
          decide_eq_true_eq] at h
        obtain ⟨v, hv⟩ := slice_ok self.line _ h
        simp only [hf, hp, hc, if_true, if_false, recordCoverageSummary, hv]
        cases env.ParseFloat v with
        | none => exact ⟨_, rfl⟩
        | some x => exact ⟨_, rfl⟩
      · simp only [hf, hp, hc, if_false]
        exact ⟨self.result, rfl⟩

section Passes

variable [Zero F] [One F] [Neg F]

theorem separateLoop_cons_terminal (env : Env F) (l : GoString) (rest : List GoString)
    (self : outputParser F) (oc : Outcome) (h : terminalOutcome env l = some oc) :
    separateLoop env (l :: rest) self =
      .ok (recordFinalOutcome { self with line := l } oc) := by
  unfold separateLoop
  simp only [processNonTestOutput_eq, h]

theorem separateLoop_cons_next (env : Env F) (l : GoString) (rest : List GoString)
    (self : outputParser F) (h : terminalOutcome env l = none) :
    separateLoop env (l :: rest) self =
      match processTestOutput env { self with line := l } with
      | .error e => .error e
      | .ok next => separateLoop env rest next := by
  conv => lhs; unfold separateLoop
  simp only [processNonTestOutput_eq, h]

/-- Pass 1 leaves the test records of the report, its error, and the text being parsed
as they are. -/
theorem processTestOutput_frame (env : Env F) (self p : outputParser F)
    (h : processTestOutput env self = .ok p) :
    p.result.TestResults = self.result.TestResults ∧ p.result.Error = self.result.Error ∧
      p.raw = self.raw ∧ p.lines = self.lines := by
  unfold processTestOutput at h
  split_ifs at h
  · unfold registerTestFunction at h
    split at h
    · cases h
    · split at h
      · cases h
      · cases h; simp
  · unfold recordTestMetadata at h
    split at h
    · cases h
    · simp only at h
      split at h
      · cases h
      · cases h; simp
  · unfold recordPackageMetadata at h
    split_ifs at h
    · unfold recordTestingOutcome at h
      simp only at h
      split at h
      · cases h
      · split at h
        · cases h
        · cases h; simp
    · unfold recordTestingOutcome at h
      simp only at h
      split at h
      · cases h
      · split at h
        · cases h
        · cases h; simp
    · unfold recordCoverageSummary at h
      simp only at h
      split at h
      · cases h
      · split at h
        · cases h; simp
        · cases h; simp
    · cases h; simp
  · cases h
    unfold saveLineForParsingLater
    simp only
    split <;> simp

theorem separateLoop_frame (env : Env F) (ls : List GoString) (self p : outputParser F)
    (h : separateLoop env ls self = .ok p) :
    p.result.TestResults = self.result.TestResults ∧ p.result.Error = self.result.Error ∧
      p.raw = self.raw ∧ p.lines = self.lines := by
  induction ls generalizing self with
  | nil =>
    unfold separateLoop at h
    cases h
    simp
  | cons l rest ih =>
    cases ht : terminalOutcome env l with
    | some oc =>
      rw [separateLoop_cons_terminal env l rest self oc ht] at h
      cases h
      simp [recordFinalOutcome]
    | none =>
      rw [separateLoop_cons_next env l rest self ht] at h
      split at h
      · cases h
      · rename_i next hnext
        have h1 := processTestOutput_frame env _ _ hnext
        have h2 := ih next h
        simp only at h1
        exact ⟨h2.1.trans h1.1, h2.2.1.trans h1.2.1, h2.2.2.1.trans h1.2.2.1,
          h2.2.2.2.trans h1.2.2.2⟩

/-- One step of pass 1 registers the name of the line when it is a test-start line and
keeps the names of the registered records otherwise. -/
theorem processTestOutput_names (env : Env F) (self p : outputParser F)
    (h : processTestOutput env self = .ok p) :
    p.tests.map (fun t => t.TestName) =
      self.tests.map (fun t => t.TestName) ++
        (if env.isNewTest self.line then (startName self.line).toList else []) := by
  unfold processTestOutput at h
  split_ifs at h with h1 h2 h3
  · unfold registerTestFunction at h
    split at h
    · cases h
    · rename_i m hm
      simp only [index] at h
      split at h
      · cases h
      · rename_i x hx
        split at hx
        · rename_i y hy
          cases hx
          cases h
          have hy' : m[1]? = some x := by simpa using hy
          simp [startName, hm, hy', NewTestResult, h1]
        · cases hx
  · unfold recordTestMetadata at h
    split at h
    · cases h
    · simp only at h
      split at h
      · cases h
      · cases h
        simp only [h1, Bool.false_eq_true, if_false, List.append_nil]
        exact modifyAt_map _ _ _ _ (fun t => rfl)
  · unfold recordPackageMetadata at h
    split_ifs at h
    · unfold recordTestingOutcome at h
      simp only at h
      split at h
      · cases h
      · split at h
        · cases h
        · cases h; simp [h1]
    · unfold recordTestingOutcome at h
      simp only at h
      split at h
      · cases h
      · split at h
        · cases h
        · cases h; simp [h1]
    · unfold recordCoverageSummary at h
      simp only at h
      split at h
      · cases h
      · split at h
        · cases h; simp [h1]
        · cases h; simp [h1]
    · cases h; simp [h1]
  · cases h
    unfold saveLineForParsingLater
    simp only
    split
    · simp [h1]
    · simp only [h1, Bool.false_eq_true, if_false, List.append_nil]
      exact modifyAt_map _ _ _ _ (fun t => rfl)

theorem separateLoop_names (env : Env F) (ls : List GoString) (self p : outputParser F)
    (h : separateLoop env ls self = .ok p) :
    p.tests.map (fun t => t.TestName) =
      self.tests.map (fun t => t.TestName) ++ startNames env ls := by
  induction ls generalizing self with
  | nil =>
    unfold separateLoop at h
    cases h
    simp [startNames]
  | cons l rest ih =>
    cases ht : terminalOutcome env l with
    | some oc =>
      rw [separateLoop_cons_terminal env l rest self oc ht] at h
      cases h
      simp [recordFinalOutcome, startNames, ht]
    | none =>
      rw [separateLoop_cons_next env l rest self ht] at h
      split at h
      · cases h
      · rename_i next hnext
        have h1 := processTestOutput_names env _ _ hnext
        have h2 := ih next h
        simp only at h1
        rw [h2, h1]
        simp only [startNames, ht, List.append_assoc]
        split <;> simp

/-- A step of pass 1 neither reads nor writes the text being parsed. -/
theorem processTestOutput_eraseText (env : Env F) (p : outputParser F) :
    Except.map eraseText (processTestOutput env (eraseText p)) =
      Except.map eraseText (processTestOutput env p) := by
  cases p with
  | mk raw lines result tests packageLines line test testMap =>
    cases result with
    | mk pn el cov oc bo er trs =>
      simp only [processTestOutput, eraseText, withoutBuildOutput]
      split_ifs
      · simp only [registerTestFunction]
        split
        · rfl
        · split <;> rfl
      · simp only [recordTestMetadata]
        split
        · rfl
        · split <;> rfl
      · simp only [recordPackageMetadata]
        split_ifs
        · simp only [recordTestingOutcome]
          split
          · rfl
          · split <;> rfl
        · simp only [recordTestingOutcome]
          split
          · rfl
          · split <;> rfl
        · simp only [recordCoverageSummary]
          split
          · rfl
          · split <;> rfl
        · rfl
      · simp only [saveLineForParsingLater, Except.map]
        split <;> rfl

theorem processTestOutput_congr (env : Env F) (s1 s2 : outputParser F) (l : GoString)
    (h : eraseText s1 = eraseText s2) :
    Except.map eraseText (processTestOutput env { s1 with line := l }) =
      Except.map eraseText (processTestOutput env { s2 with line := l }) := by
  rw [← processTestOutput_eraseText env { s1 with line := l },
    ← processTestOutput_eraseText env { s2 with line := l }]
  have h1 : eraseText { s1 with line := l } = { eraseText s1 with line := l } := rfl
  have h2 : eraseText { s2 with line := l } = { eraseText s2 with line := l } := rfl
  rw [h1, h2, h]

/-- Pass 1 over two line sequences that agree up to and including a terminal line,
from states that agree except on the text being parsed, ends in states that agree
except on that text, or in the same failure. -/
theorem separateLoop_eraseText (env : Env F) (t : GoString) (postA postB : List GoString)
    (ht : (terminalOutcome env t).isSome = true) (pre : List GoString) :
    ∀ s1 s2 : outputParser F, eraseText s1 = eraseText s2 →
      Except.map eraseText (separateLoop env (pre ++ t :: postA) s1) =
        Except.map eraseText (separateLoop env (pre ++ t :: postB) s2) := by
  induction pre with
  | nil =>
    intro s1 s2 h
    obtain ⟨oc, hoc⟩ := Option.isSome_iff_exists.mp ht
    simp only [List.nil_append, separateLoop_cons_terminal env t _ _ oc hoc, Except.map,
      eraseText_recordFinalOutcome, h]
  | cons l pre ih =>
    intro s1 s2 h
    cases hl : terminalOutcome env l with
    | some oc =>
      simp only [List.cons_append, separateLoop_cons_terminal env l _ _ oc hl, Except.map,
        eraseText_recordFinalOutcome, h]
    | none =>
      simp only [List.cons_append, separateLoop_cons_next env l _ _ hl]
      have key := processTestOutput_congr env s1 s2 l h
      cases h1 : processTestOutput env { s1 with line := l } with
      | error e1 =>
        cases h2 : processTestOutput env { s2 with line := l } with
        | error e2 =>
          rw [h1, h2] at key
          simpa [Except.map] using key
        | ok n2 =>
          rw [h1, h2] at key
          simp [Except.map] at key
      | ok n1 =>
        cases h2 : processTestOutput env { s2 with line := l } with
        | error e2 =>
          rw [h1, h2] at key
          simp [Except.map] at key
        | ok n2 =>
          rw [h1, h2] at key
          simp only [Except.map, Except.ok.injEq] at key
          exact ih n1 n2 key

/-- Pass 1 over lines none of which is terminal reads them all. -/
theorem separateLoop_append (env : Env F) (pre rest : List GoString) (self : outputParser F)
    (hpre : ∀ l ∈ pre, terminalOutcome env l = none) :
    separateLoop env (pre ++ rest) self =
      match separateLoop env pre self with
      | .error e => .error e
      | .ok p => separateLoop env rest p := by
  induction pre generalizing self with
  | nil => simp [separateLoop]
  | cons l pre ih =>
    have hl : terminalOutcome env l = none := hpre l (by simp)
    have hrest : ∀ x ∈ pre, terminalOutcome env x = none := fun x hx => hpre x (by simp [hx])
    simp only [List.cons_append, separateLoop_cons_next env l _ _ hl]
    cases processTestOutput env { self with line := l } with
    | error e => rfl
    | ok next => exact ih next hrest

/-- Pass 1 over lines that are neither terminal, test-start nor test-result lines and
whose package-report lines are well formed, from a state without registered test:
it completes, registers no test and appends the plain lines to the package-scope
lines. -/
theorem separateLoop_no_tests (env : Env F) (ls : List GoString) (self : outputParser F)
    (hall : ∀ l ∈ ls, terminalOutcome env l = none ∧ env.isNewTest l = false ∧
      env.isTestResult l = false ∧
      (env.isPackageReport l = true → reportWellFormed env l = true))
    (htest : self.test = none) (htests : self.tests = []) :
    ∃ p, separateLoop env ls self = .ok p ∧ p.tests = [] ∧
      p.packageLines = self.packageLines ++ plainLines env ls := by
  induction ls generalizing self with
  | nil => exact ⟨self, rfl, htests, by simp [plainLines]⟩
  | cons l rest ih =>
    obtain ⟨hterm, hnew, hres, hwf⟩ := hall l (by simp)
    have hrest : ∀ x ∈ rest, terminalOutcome env x = none ∧ env.isNewTest x = false ∧
        env.isTestResult x = false ∧
        (env.isPackageReport x = true → reportWellFormed env x = true) :=
      fun x hx => hall x (by simp [hx])
    rw [separateLoop_cons_next env l rest self hterm]
    by_cases hrep : env.isPackageReport l = true
    · obtain ⟨r, hr⟩ := recordPackageMetadata_ok env { self with line := l } (hwf hrep)
      have hstep : processTestOutput env { self with line := l } =
          .ok { { self with line := l } with result := r } := by
        unfold processTestOutput
        simp only [hnew, hres, hrep, Bool.false_eq_true, if_false, if_true, hr]
      rw [hstep]
      obtain ⟨p, hp, hpt, hpl⟩ := ih { { self with line := l } with result := r } hrest htest htests
      refine ⟨p, hp, hpt, ?_⟩
      rw [hpl]
      simp [plainLines, hrep]
    · have hrep' : env.isPackageReport l = false := by simpa using hrep
      have hstep : processTestOutput env { self with line := l } =
          .ok { self with
            line := strings.TrimLeft l [strings.tab]
            packageLines := self.packageLines ++ [strings.TrimLeft l [strings.tab]] } := by
        unfold processTestOutput saveLineForParsingLater
        simp only [hnew, hres, hrep', Bool.false_eq_true, if_false, htest]
      rw [hstep]
      obtain ⟨p, hp, hpt, hpl⟩ := ih
        { self with
          line := strings.TrimLeft l [strings.tab]
          packageLines := self.packageLines ++ [strings.TrimLeft l [strings.tab]] }
        hrest htest htests
      refine ⟨p, hp, hpt, ?_⟩
      rw [hpl]
      simp [plainLines, hrep']

theorem processTestOutput_outcome (env : Env F) (self p : outputParser F)
    (h : processTestOutput env self = .ok p) :
    p.result.Outcome = stepOutcome env self.line self.result.Outcome := by
  unfold stepOutcome
  unfold processTestOutput at h
  split_ifs at h with h1 h2 h3
  · unfold registerTestFunction at h
    split at h
    · cases h
    · split at h
      · cases h
      · cases h; simp [h1]
  · unfold recordTestMetadata at h
    split at h
    · cases h
    · simp only at h
      split at h
      · cases h
      · cases h; simp [h1, h2]
  · unfold recordPackageMetadata at h
    split_ifs at h with h4 h5 h6
    · unfold recordTestingOutcome at h
      simp only at h
      split at h
      · cases h
      · split at h
        · cases h
        · cases h; simp [h1, h2, h3, h4]
    · unfold recordTestingOutcome at h
      simp only at h
      split at h
      · cases h
      · split at h
        · cases h
        · cases h; simp [h1, h2, h3, h4, h5]
    · unfold recordCoverageSummary at h
      simp only at h
      split at h
      · cases h
      · split at h
        · cases h; simp [h1, h2, h3, h4, h5]
        · cases h; simp [h1, h2, h3, h4, h5]
    · cases h; simp [h1, h2, h3, h4, h5]
  · cases h
    unfold saveLineForParsingLater
    simp only
    split <;> simp [h1, h2, h3]

theorem separateLoop_outcome (env : Env F) (ls : List GoString) (self p : outputParser F)
    (h : separateLoop env ls self = .ok p) :
    p.result.Outcome = lastOutcome env ls self.result.Outcome := by
  induction ls generalizing self with
  | nil =>
    unfold separateLoop at h
    cases h
    simp [lastOutcome]
  | cons l rest ih =>
    cases ht : terminalOutcome env l with
    | some oc =>
      rw [separateLoop_cons_terminal env l rest self oc ht] at h
      cases h
      simp [recordFinalOutcome, lastOutcome, ht]
    | none =>
      rw [separateLoop_cons_next env l rest self ht] at h
      split at h
      · cases h
      · rename_i next hnext
        have h1 := processTestOutput_outcome env _ _ hnext
        have h2 := ih next h
        simp only at h1
        rw [h2, h1]
        simp only [lastOutcome, ht]

theorem processTestOutput_count (env : Env F) (self p : outputParser F)
    (h : processTestOutput env self = .ok p) :
    p.tests.length = self.tests.length + (if env.isNewTest self.line then 1 else 0) := by
  unfold processTestOutput at h
  split_ifs at h with h1 h2 h3
  · unfold registerTestFunction at h
    split at h
    · cases h
    · split at h
      · cases h
      · cases h; simp [h1]
  · unfold recordTestMetadata at h
    split at h
    · cases h
    · simp only at h
      split at h
      · cases h
      · cases h; simp [modifyAt_length, h1]
  · unfold recordPackageMetadata at h
    split_ifs at h
    · unfold recordTestingOutcome at h
      simp only at h
      split at h
      · cases h
      · split at h
        · cases h
        · cases h; simp [h1]
    · unfold recordTestingOutcome at h
      simp only at h
      split at h
      · cases h
      · split at h
        · cases h
        · cases h; simp [h1]
    · unfold recordCoverageSummary at h
      simp only at h
      split at h
      · cases h
      · split at h
        · cases h; simp [h1]
        · cases h; simp [h1]
    · cases h; simp [h1]
  · cases h
    unfold saveLineForParsingLater
    simp only
    split <;> simp [modifyAt_length, h1]

theorem separateLoop_count (env : Env F) (ls : List GoString) (self p : outputParser F)
    (h : separateLoop env ls self = .ok p) :
    p.tests.length = self.tests.length + countStarts env ls := by
  induction ls generalizing self with
  | nil =>
    unfold separateLoop at h
    cases h
    simp [countStarts]
  | cons l rest ih =>
    cases ht : terminalOutcome env l with
    | some oc =>
      rw [separateLoop_cons_terminal env l rest self oc ht] at h
      cases h
      simp [recordFinalOutcome, countStarts, ht]
    | none =>
      rw [separateLoop_cons_next env l rest self ht] at h
      split at h
      · cases h
      · rename_i next hnext
        have h1 := processTestOutput_count env _ _ hnext
        have h2 := ih next h
        simp only at h1
        rw [h2, h1]
        simp only [countStarts, ht]
        omega

/-- A step of pass 1 keeps the map bound to the last record of every name. -/
theorem processTestOutput_mapAgrees (env : Env F) (self p : outputParser F)
    (h : processTestOutput env self = .ok p) (hinv : mapAgrees self) : mapAgrees p := by
  unfold processTestOutput at h
  split_ifs at h with h1 h2 h3
  · unfold registerTestFunction at h
    split at h
    · cases h
    · split at h
      · cases h
      · rename_i testName _
        cases h
        intro n
        have hn := hinv n
        simp only [lookup, lastNamed_append, NewTestResult, hn]
  · unfold recordTestMetadata at h
    split at h
    · cases h
    · simp only at h
      split at h
      · cases h
      · cases h
        intro n
        refine (hinv n).trans (lastNamed_modifyAt _ _ _ n ?_).symm
        intro t
        rfl
  · unfold recordPackageMetadata at h
    split_ifs at h
    · unfold recordTestingOutcome at h
      simp only at h
      split at h
      · cases h
      · split at h
        · cases h
        · cases h; exact hinv
    · unfold recordTestingOutcome at h
      simp only at h
      split at h
      · cases h
      · split at h
        · cases h
        · cases h; exact hinv
    · unfold recordCoverageSummary at h
      simp only at h
      split at h
      · cases h
      · split at h
        · cases h; exact hinv
        · cases h; exact hinv
    · cases h; exact hinv
  · cases h
    unfold saveLineForParsingLater
    simp only
    split
    · exact hinv
    · intro n
      refine (hinv n).trans (lastNamed_modifyAt _ _ _ n ?_).symm
      intro t
      rfl

/-- Pass 1 keeps the map bound to the last record of every name. -/
theorem separateLoop_mapAgrees (env : Env F) (ls : List GoString) (self p : outputParser F)
    (h : separateLoop env ls self = .ok p) (hinv : mapAgrees self) : mapAgrees p := by
  induction ls generalizing self with
  | nil =>
    unfold separateLoop at h
    cases h
    exact hinv
  | cons l rest ih =>
    cases ht : terminalOutcome env l with
    | some oc =>
      rw [separateLoop_cons_terminal env l rest self oc ht] at h
      cases h
      exact hinv
    | none =>
      rw [separateLoop_cons_next env l rest self ht] at h
      split at h
      · cases h
      · rename_i next hnext
        exact ih next h (processTestOutput_mapAgrees env _ _ hnext hinv)

/-- `ParsePackageResults` is pass 1 over the lines of the trimmed text followed by the
last two steps. -/
theorem ParsePackageResults_eq (env : Env F) (r0 : PackageResult F) (input : GoString) :
    ParsePackageResults env r0 input =
      match separateLoop env (strings.Split (strings.TrimSpace input) strings.nl)
          (newOutputParser r0 input) with
      | .error e => .error e
      | .ok p => .ok (recoverFromInitPanic (parseEachTestFunction env p)).result := by
  unfold ParsePackageResults parse separateTestFunctionsAndMetadata
  have : (newOutputParser r0 input).lines = strings.Split (strings.TrimSpace input) strings.nl := rfl
  rw [this]
  cases separateLoop env (strings.Split (strings.TrimSpace input) strings.nl)
    (newOutputParser r0 input) <;> rfl

end Passes

/-! ## The claims -/

section Claims

variable [Zero F] [One F] [Neg F]

/-- C1. When the first line of the trimmed input satisfies a terminal predicate, the
parse completes, adds no test record, sets `Outcome` to the constant of the first
terminal predicate the line satisfies and `BuildOutput` to the trimmed input, and
leaves every other field of the report as it was; joining the lines of the trimmed
input with `"\n"` gives back the trimmed input. -/
theorem first_line_terminal (env : Env F) (r0 : PackageResult F) (input l : GoString)
    (rest : List GoString) (oc : Outcome)
    (hlines : strings.Split (strings.TrimSpace input) strings.nl = l :: rest)
    (hterm : terminalOutcome env l = some oc) :
    ParsePackageResults env r0 input =
        .ok { r0 with Outcome := oc, BuildOutput := strings.TrimSpace input } ∧
      strings.Join (strings.Split (strings.TrimSpace input) strings.nl) [strings.nl] =
        strings.TrimSpace input := by
  refine ⟨?_, Join_Split _ _⟩
  rw [ParsePackageResults_eq, hlines, separateLoop_cons_terminal env l rest _ oc hterm]
  simp only [final_result]
  simp [recordFinalOutcome, initPanic, newOutputParser, Join_Split]

/-- C2. When the parse completes and some test record it appended to the report has a
non-empty `Error`, the final `Outcome` is `Panicked`, whatever the line predicates and
the per-test parser are and whatever package-report lines the input holds. -/
theorem error_forces_panicked (env : Env F) (r0 r : PackageResult F) (input : GoString)
    (t : TestResult F) (h : ParsePackageResults env r0 input = .ok r)
    (ht : t ∈ added r r0.TestResults.length) (herr : t.Error ≠ []) :
    r.Outcome = .Panicked := by
  rw [ParsePackageResults_eq] at h
  split at h
  · cases h
  · rename_i p hp
    have hframe := separateLoop_frame env _ _ p hp
    have hTR : p.result.TestResults = r0.TestResults := hframe.1
    injection h with h
    subst h
    rw [final_result]
    rw [final_result] at ht
    simp only [added, hTR, List.drop_left, List.mem_map] at ht
    obtain ⟨t', ht', hfin⟩ := ht
    have hany : p.tests.any (hasError env) = true := by
      rw [List.any_eq_true]
      refine ⟨t', ht', ?_⟩
      subst hfin
      simpa [hasError, finalize] using herr
    simp [hany]

/-- C3 (amended). When the parse completes and the per-test parser keeps test names,
the records added to the report are one per test-start line read before the first
terminal line, in the order of these lines, each bearing the name on its line; a name
that stands on several start lines is therefore borne by as many records. -/
theorem added_names_are_start_names (env : Env F) (r0 r : PackageResult F)
    (input : GoString) (h : ParsePackageResults env r0 input = .ok r)
    (hkeep : ∀ t, (env.parseTestOutput t).TestName = t.TestName) :
    (added r r0.TestResults.length).map (fun t => t.TestName) =
      startNames env (strings.Split (strings.TrimSpace input) strings.nl) := by
  rw [ParsePackageResults_eq] at h
  split at h
  · cases h
  · rename_i p hp
    have hframe := separateLoop_frame env _ _ p hp
    have hTR : p.result.TestResults = r0.TestResults := hframe.1
    have hnames := separateLoop_names env _ _ p hp
    injection h with h
    subst h
    rw [final_result]
    simp only [added, hTR, List.drop_left, List.map_map]
    have hfin : ((fun t => t.TestName) ∘ finalize env) = (fun t : TestResult F => t.TestName) := by
      funext t
      simp [finalize, hkeep]
    rw [hfin, hnames]
    simp [newOutputParser]

/-- C5. A line `coverage: v%rest` (no `%` in `v`) that is classified as a coverage
summary and reaches `recordCoverageSummary` is processed without a runtime failure; it
sets `Coverage` to `-1` when `v` does not parse as a number and to the parsed value
when it does, and changes nothing else in the parser state and the report. -/
theorem coverage_line (env : Env F) (self : outputParser F) (v rest : GoString)
    (hv : strings.percent ∉ v)
    (hline : self.line = bytes "coverage: " ++ v ++ strings.percent :: rest)
    (hnew : env.isNewTest self.line = false) (hres : env.isTestResult self.line = false)
    (hrep : env.isPackageReport self.line = true)
    (hfail : env.packageFailed self.line = false)
    (hpass : env.packagePassed self.line = false)
    (hcov : env.isCoverageSummary self.line = true) :
    processTestOutput env self =
      .ok { self with
        result := { self.result with
          Coverage := match env.ParseFloat v with
            | some parsed => parsed
            | none => -1 } } := by
  have hidx : strings.Index self.line strings.percent =
      (((bytes "coverage: ").length : Nat) : Int) + v.length := by
    have hmem : strings.percent ∉ bytes "coverage: " ++ v := by
      intro hm
      rcases List.mem_append.mp hm with hm | hm
      · exact absurd hm (by decide)
      · exact hv hm
    have := indexFrom_append strings.percent (bytes "coverage: " ++ v) rest 0 hmem
    rw [hline]
    unfold strings.Index
    rw [this]
    simp only [List.length_append]
    push_cast
    ring
  have hslice : slice self.line (((bytes "coverage: ").length : Nat) : Int)
      (strings.Index self.line strings.percent) = .ok v := by
    rw [hidx, hline]
    have := slice_middle (bytes "coverage: ") v (strings.percent :: rest)
    simpa [List.append_assoc] using this
  unfold processTestOutput recordPackageMetadata recordCoverageSummary
  simp only [hnew, hres, hrep, hfail, hpass, hcov, Bool.false_eq_true, if_false, if_true,
    hslice]
  cases env.ParseFloat v <;> rfl

/-- C6 (amended). The text of the example with the fields of its last line separated
by tabs, `=== RUN TestA`, `--- PASS: TestA (0.01s)`, `ok  <TAB>pkg/foo<TAB>0.012s`,
its lines classified as test-start, test-result and success package report, and the
per-test parser returning the record as it is: the parse completes, adds exactly one
record, named `TestA`, passed, not skipped, whose elapsed time is the value `e1` the
duration parser returns for the result line, and sets `Outcome` to `Passed`,
`PackageName` to `pkg/foo` and `Elapsed` to the value `e2` parsed from `0.012s` with
precision 3. -/
theorem example_with_tabs (env : Env F) (r0 : PackageResult F) (e1 e2 : F)
    (ht1 : terminalOutcome env (bytes "=== RUN TestA") = none)
    (ht2 : terminalOutcome env (bytes "--- PASS: TestA (0.01s)") = none)
    (ht3 : terminalOutcome env (bytes "ok  \tpkg/foo\t0.012s") = none)
    (hstart : env.isNewTest (bytes "=== RUN TestA") = true)
    (hres1 : env.isNewTest (bytes "--- PASS: TestA (0.01s)") = false)
    (hres2 : env.isTestResult (bytes "--- PASS: TestA (0.01s)") = true)
    (hrep1 : env.isNewTest (bytes "ok  \tpkg/foo\t0.012s") = false)
    (hrep2 : env.isTestResult (bytes "ok  \tpkg/foo\t0.012s") = false)
    (hrep3 : env.isPackageReport (bytes "ok  \tpkg/foo\t0.012s") = true)
    (hrep4 : env.packageFailed (bytes "ok  \tpkg/foo\t0.012s") = false)
    (hrep5 : env.packagePassed (bytes "ok  \tpkg/foo\t0.012s") = true)
    (hd1 : env.parseTestFunctionDuration (bytes "--- PASS: TestA (0.01s)") = e1)
    (hd2 : env.parseDurationInSeconds (bytes "0.012s") 3 = e2)
    (hpt : env.parseTestOutput
        { TestName := bytes "TestA", Passed := true, Skipped := false, Elapsed := e1,
          RawLines := [], Error := [] } =
        { TestName := bytes "TestA", Passed := true, Skipped := false, Elapsed := e1,
          RawLines := [], Error := [] }) :
    ParsePackageResults env r0
        (bytes "=== RUN TestA\n--- PASS: TestA (0.01s)\nok  \tpkg/foo\t0.012s") =
      .ok { r0 with
        Outcome := .Passed
        PackageName := bytes "pkg/foo"
        Elapsed := e2
        TestResults := r0.TestResults ++ [
          { TestName := bytes "TestA", Passed := true, Skipped := false, Elapsed := e1,
            RawLines := [], Error := [] }] } := by
  have hsplit : strings.Split (strings.TrimSpace
      (bytes "=== RUN TestA\n--- PASS: TestA (0.01s)\nok  \tpkg/foo\t0.012s")) strings.nl =
      [bytes "=== RUN TestA", bytes "--- PASS: TestA (0.01s)",
        bytes "ok  \tpkg/foo\t0.012s"] := by decide
  have hfind : testNamePattern.FindStringSubmatch (bytes "=== RUN TestA") =
      some [bytes "=== RUN TestA", bytes "TestA"] := by decide
  have hname : index (strings.Split (bytes "--- PASS: TestA (0.01s)") strings.space) 2 =
      .ok (bytes "TestA") := by rfl
  have hfailp : strings.HasPrefix (bytes "--- PASS: TestA (0.01s)") (bytes "--- FAIL: ") =
      false := by decide
  have hskipp : strings.HasPrefix (bytes "--- PASS: TestA (0.01s)") (bytes "--- SKIP: ") =
      false := by decide
  have hf1 : index (strings.Split (bytes "ok  \tpkg/foo\t0.012s") strings.tab) 1 =
      .ok (bytes "pkg/foo") := by rfl
  have hf2 : index (strings.Split (bytes "ok  \tpkg/foo\t0.012s") strings.tab) 2 =
      .ok (bytes "0.012s") := by rfl
  have htrim : strings.TrimSpace (bytes "pkg/foo") = bytes "pkg/foo" := by decide
  have hlook : lookup [(bytes "TestA", 0)] (bytes "TestA") = some 0 := by decide
  rw [ParsePackageResults_eq, hsplit, separateLoop_cons_next _ _ _ _ ht1]
  simp only [processTestOutput, registerTestFunction, hstart, if_true, hfind, index,
    List.get?, newOutputParser, List.length_nil, List.nil_append, NewTestResult]
  rw [separateLoop_cons_next _ _ _ _ ht2]
  simp only [processTestOutput, recordTestMetadata, hres1, hres2, Bool.false_eq_true,
    if_false, if_true, hname, hlook, modifyAt, hfailp, hskipp, hd1, Bool.not_false]
  rw [separateLoop_cons_next _ _ _ _ ht3]
  simp only [processTestOutput, recordPackageMetadata, recordTestingOutcome, hrep1, hrep2,
    hrep3, hrep4, hrep5, Bool.false_eq_true, if_false, if_true, hf1, hf2, htrim, hd2]
  simp only [separateLoop, final_result]
  simp [initPanic, hasError, finalize, hpt]

/-- C10. Two inputs whose line sequences agree up to and including a line that
satisfies a terminal predicate give, with the same line predicates, per-test parser
and initial report, results that agree in everything but `BuildOutput`: the same
runtime failure, or reports with the same outcome, test records, package name,
elapsed time, coverage and error. -/
theorem lines_after_terminal_ignored (env : Env F) (r0 : PackageResult F)
    (a b t : GoString) (pre postA postB : List GoString)
    (ha : strings.Split (strings.TrimSpace a) strings.nl = pre ++ t :: postA)
    (hb : strings.Split (strings.TrimSpace b) strings.nl = pre ++ t :: postB)
    (ht : (terminalOutcome env t).isSome = true) :
    Except.map withoutBuildOutput (ParsePackageResults env r0 a) =
      Except.map withoutBuildOutput (ParsePackageResults env r0 b) := by
  rw [ParsePackageResults_eq, ParsePackageResults_eq, ha, hb]
  have h0 : eraseText (newOutputParser r0 a) = eraseText (newOutputParser r0 b) := rfl
  have key := separateLoop_eraseText env t postA postB ht pre _ _ h0
  cases h1 : separateLoop env (pre ++ t :: postA) (newOutputParser r0 a) with
  | error e1 =>
    cases h2 : separateLoop env (pre ++ t :: postB) (newOutputParser r0 b) with
    | error e2 =>
      rw [h1, h2] at key
      simpa [Except.map] using key
    | ok n2 =>
      rw [h1, h2] at key
      simp [Except.map] at key
  | ok n1 =>
    cases h2 : separateLoop env (pre ++ t :: postB) (newOutputParser r0 b) with
    | error e2 =>
      rw [h1, h2] at key
      simp [Except.map] at key
    | ok n2 =>
      rw [h1, h2] at key
      simp only [Except.map, Except.ok.injEq] at key
      simp only [Except.map, Except.ok.injEq]
      exact final_result_eraseText env n1 n2 key

/-- C8 (amended). When the lines before a terminal line are read without failure,
leaving the parser in state `p1`, the parse completes, `BuildOutput` is the whole
trimmed input, and the final `Outcome` is the terminal outcome of that line unless no
test is registered and a package-scope line starts with the panic marker, or the
per-test parser reports an error for a registered test: then it is `Panicked`. -/
theorem terminal_line_outcome (env : Env F) (r0 : PackageResult F) (input t : GoString)
    (pre post : List GoString) (oc : Outcome) (p1 : outputParser F)
    (hlines : strings.Split (strings.TrimSpace input) strings.nl = pre ++ t :: post)
    (hpre : ∀ l ∈ pre, terminalOutcome env l = none)
    (ht : terminalOutcome env t = some oc)
    (hp1 : separateLoop env pre (newOutputParser r0 input) = .ok p1) :
    ∃ r, ParsePackageResults env r0 input = .ok r ∧
      r.BuildOutput = strings.TrimSpace input ∧
      r.Outcome = if initPanic p1 || p1.tests.any (hasError env) then .Panicked else oc := by
  have hframe := separateLoop_frame env _ _ p1 hp1
  have hl : p1.lines = strings.Split (strings.TrimSpace input) strings.nl := hframe.2.2.2
  rw [ParsePackageResults_eq, hlines, separateLoop_append env pre _ _ hpre, hp1]
  simp only [separateLoop_cons_terminal env t post p1 oc ht]
  refine ⟨_, rfl, ?_, ?_⟩
  · simp [final_result, recordFinalOutcome, hl, Join_Split]
  · have hi : initPanic (recordFinalOutcome { p1 with line := t } oc) = initPanic p1 := rfl
    have hts : (recordFinalOutcome { p1 with line := t } oc).tests = p1.tests := rfl
    have hoc : (recordFinalOutcome { p1 with line := t } oc).result.Outcome = oc := rfl
    simp only [final_result, hi, hts, hoc]
    cases initPanic p1 <;> cases p1.tests.any (hasError env) <;> simp

/-- C9 (amended). A test-result line makes the test it names the active test. From any
parser state, reading the start line of `a`, the start line of `b` (another name), a
result line naming `a` and a plain line leaves the plain line, its leading tabs
removed, in the raw lines of the record of `a`, and the raw lines of the record of `b`
empty. -/
theorem result_line_activates_named_test (env : Env F) (self : outputParser F)
    (a b lr lp : GoString) (ha : a ≠ []) (hanl : strings.nl ∉ a) (hb : b ≠ [])
    (hbnl : strings.nl ∉ b) (hab : a ≠ b)
    (hta : terminalOutcome env (bytes "=== RUN " ++ a) = none)
    (htb : terminalOutcome env (bytes "=== RUN " ++ b) = none)
    (htr : terminalOutcome env lr = none) (htp : terminalOutcome env lp = none)
    (hsa : env.isNewTest (bytes "=== RUN " ++ a) = true)
    (hsb : env.isNewTest (bytes "=== RUN " ++ b) = true)
    (hr1 : env.isNewTest lr = false) (hr2 : env.isTestResult lr = true)
    (hrname : index (strings.Split lr strings.space) 2 = .ok a)
    (hp1 : env.isNewTest lp = false) (hp2 : env.isTestResult lp = false)
    (hp3 : env.isPackageReport lp = false) :
    separateLoop env [bytes "=== RUN " ++ a, bytes "=== RUN " ++ b, lr, lp] self =
      .ok { self with
        line := strings.TrimLeft lp [strings.tab]
        test := some self.tests.length
        tests := self.tests ++ [
          { TestName := a
            Passed := !strings.HasPrefix lr (bytes "--- FAIL: ")
            Skipped := strings.HasPrefix lr (bytes "--- SKIP: ")
            Elapsed := env.parseTestFunctionDuration lr
            RawLines := [strings.TrimLeft lp [strings.tab]]
            Error := [] },
          { TestName := b, Passed := false, Skipped := false, Elapsed := 0,
            RawLines := [], Error := [] }]
        testMap := (b, self.tests.length + 1) :: (a, self.tests.length) :: self.testMap } := by
  have hba : ¬ b = a := fun h => hab h.symm
  rw [separateLoop_cons_next _ _ _ _ hta]
  simp only [processTestOutput, registerTestFunction, hsa, if_true,
    FindStringSubmatch_run a ha hanl, index, List.get?, NewTestResult]
  rw [separateLoop_cons_next _ _ _ _ htb]
  simp only [processTestOutput, registerTestFunction, hsb, if_true,
    FindStringSubmatch_run b hb hbnl, index, List.get?, NewTestResult]
  rw [separateLoop_cons_next _ _ _ _ htr]
  simp only [processTestOutput, recordTestMetadata, hr1, hr2, Bool.false_eq_true, if_false,
    if_true, hrname, lookup, hba]
  rw [separateLoop_cons_next _ _ _ _ htp]
  simp only [processTestOutput, saveLineForParsingLater, hp1, hp2, hp3, Bool.false_eq_true,
    if_false]
  simp only [separateLoop, List.append_assoc, List.singleton_append, modifyAt_append,
    List.length_append, List.length_singleton, List.nil_append]

/-- C7 (amended). For an input none of whose lines is a terminal, test-start or
test-result line and whose package-report lines are well formed, if some plain line,
its leading tabs removed, starts with `panic: `, the parse completes with `Outcome`
`Panicked` and `Error` the plain lines of the trimmed input, each without its leading
tabs, joined by newlines (package-report lines are not part of it); no test record is
added. -/
theorem init_panic_recovered (env : Env F) (r0 : PackageResult F) (input : GoString)
    (hall : ∀ l ∈ strings.Split (strings.TrimSpace input) strings.nl,
      terminalOutcome env l = none ∧ env.isNewTest l = false ∧ env.isTestResult l = false ∧
      (env.isPackageReport l = true → reportWellFormed env l = true))
    (hpanic : (plainLines env (strings.Split (strings.TrimSpace input) strings.nl)).any
      isPanicLine = true) :
    ∃ r, ParsePackageResults env r0 input = .ok r ∧ r.Outcome = .Panicked ∧
      r.Error = strings.Join
        (plainLines env (strings.Split (strings.TrimSpace input) strings.nl)) [strings.nl] ∧
      r.TestResults = r0.TestResults := by
  obtain ⟨p, hp, hpt, hpl⟩ :=
    separateLoop_no_tests env _ (newOutputParser r0 input) hall rfl rfl
  have hframe := separateLoop_frame env _ _ p hp
  have hpl' : p.packageLines =
      plainLines env (strings.Split (strings.TrimSpace input) strings.nl) := by
    rw [hpl]
    simp [newOutputParser]
  have hinit : initPanic p = true := by
    simp only [initPanic, hpt, hpl', hpanic, List.isEmpty_nil, Bool.and_self]
  rw [ParsePackageResults_eq, hp]
  refine ⟨_, rfl, ?_, ?_, ?_⟩
  · simp [final_result, hinit]
  · simp [final_result, hinit, hpl']
  · simp only [final_result, hpt, List.map_nil, List.append_nil]
    exact hframe.1

/-- C11. When pass 1 completes, leaving the parser in state `p1` with no test
registered and no package-scope line that starts with `panic: `, the parse completes
and the report is the one pass 1 left: its `Outcome` is the last outcome written by a
failure report, a success report or the terminal line (the outcome of the initial
report when there is no such line), and its `Error` is that of the initial report. -/
theorem outcome_kept_without_tests (env : Env F) (r0 : PackageResult F) (input : GoString)
    (p1 : outputParser F)
    (hp1 : separateTestFunctionsAndMetadata env (newOutputParser r0 input) = .ok p1)
    (hzero : p1.tests = [])
    (hnone : ∀ l ∈ p1.packageLines, strings.HasPrefix l (bytes "panic: ") = false) :
    ParsePackageResults env r0 input = .ok p1.result ∧
      p1.result.Outcome =
        lastOutcome env (strings.Split (strings.TrimSpace input) strings.nl) r0.Outcome ∧
      p1.result.Error = r0.Error := by
  have hp1' : separateLoop env (strings.Split (strings.TrimSpace input) strings.nl)
      (newOutputParser r0 input) = .ok p1 := hp1
  have hframe := separateLoop_frame env _ _ p1 hp1'
  have hout := separateLoop_outcome env _ _ p1 hp1'
  have hinit : initPanic p1 = false := by
    simp only [initPanic, hzero, List.isEmpty_nil, Bool.true_and]
    rw [Bool.eq_false_iff]
    intro hany
    rw [List.any_eq_true] at hany
    obtain ⟨l, hl, hpl⟩ := hany
    have := hnone l hl
    simp [isPanicLine, this] at hpl
  refine ⟨?_, hout, hframe.2.1⟩
  rw [ParsePackageResults_eq, hp1']
  simp [final_result, hinit, hzero]

/-- C12. A package-report line with at least three tab-separated fields that is
classified as a failure or a success report is processed without failure: `Outcome`
becomes `Failed` when the line is a failure report (also when it is a success report
as well) and `Passed` otherwise, `PackageName` becomes field 1 with the surrounding
white space trimmed, `Elapsed` the duration parsed from field 2 with precision 3, and
nothing else changes in the report, the registered records and the line buffers. -/
theorem package_report_line (env : Env F) (self : outputParser F) (f0 f1 f2 : GoString)
    (more : List GoString)
    (hfields : strings.Split self.line strings.tab = f0 :: f1 :: f2 :: more)
    (hnew : env.isNewTest self.line = false) (hres : env.isTestResult self.line = false)
    (hrep : env.isPackageReport self.line = true)
    (hcls : env.packageFailed self.line = true ∨ env.packagePassed self.line = true) :
    processTestOutput env self =
      .ok { self with
        result := { self.result with
          Outcome := if env.packageFailed self.line then .Failed else .Passed
          PackageName := strings.TrimSpace f1
          Elapsed := env.parseDurationInSeconds f2 3 } } := by
  have h1 : index (strings.Split self.line strings.tab) 1 = .ok f1 := by
    rw [hfields]; rfl
  have h2 : index (strings.Split self.line strings.tab) 2 = .ok f2 := by
    rw [hfields]; rfl
  unfold processTestOutput recordPackageMetadata
  simp only [hnew, hres, hrep, Bool.false_eq_true, if_false, if_true]
  by_cases hf : env.packageFailed self.line = true
  · simp only [hf, if_true, recordTestingOutcome, h1, h2]
  · have hp : env.packagePassed self.line = true := hcls.resolve_left hf
    have hf' : env.packageFailed self.line = false := by simpa using hf
    simp only [hf', hp, Bool.false_eq_true, if_false, if_true, recordTestingOutcome, h1, h2]

/-- C13 (amended). For a plain line, made of `k` tabs followed by a text `rest` that
does not start with a tab, the text stored in the raw lines of the active test (in the
package-scope lines when no test is active) is `rest`: all the leading tabs are
removed, however many there are, and a line without leading tab is stored as it is. -/
theorem plain_line_stored (env : Env F) (self : outputParser F) (k : Nat) (rest : GoString)
    (hline : self.line = List.replicate k strings.tab ++ rest)
    (hrest : rest.head? ≠ some strings.tab)
    (hnew : env.isNewTest self.line = false) (hres : env.isTestResult self.line = false)
    (hrep : env.isPackageReport self.line = false) :
    processTestOutput env self =
      .ok (match self.test with
        | none => { self with line := rest, packageLines := self.packageLines ++ [rest] }
        | some ptr =>
          { self with
            line := rest
            tests := modifyAt self.tests ptr (fun t =>
              { t with RawLines := t.RawLines ++ [rest] }) }) := by
  have htrim : strings.TrimLeft self.line [strings.tab] = rest := by
    rw [hline]
    exact TrimLeft_tabs k rest hrest
  unfold processTestOutput saveLineForParsingLater
  simp only [hnew, hres, hrep, Bool.false_eq_true, if_false, htrim]

/-- C14. When pass 1 completes, leaving the parser in state `p1`, the parse completes.
If no test is registered and some package-scope line starts with `panic: `, the
`Outcome` is `Panicked` and the `Error` is all the package-scope lines joined by
newlines. In every other case, in particular whenever a test is registered, the
`Error` is the one the report had before the parse. -/
theorem error_written_on_init_panic_only (env : Env F) (r0 : PackageResult F)
    (input : GoString) (p1 : outputParser F)
    (hp1 : separateTestFunctionsAndMetadata env (newOutputParser r0 input) = .ok p1) :
    ∃ r, ParsePackageResults env r0 input = .ok r ∧
      ((p1.tests = [] ∧ ∃ l ∈ p1.packageLines, strings.HasPrefix l (bytes "panic: ") = true) →
        r.Outcome = .Panicked ∧ r.Error = strings.Join p1.packageLines [strings.nl]) ∧
      (¬ (p1.tests = [] ∧
          ∃ l ∈ p1.packageLines, strings.HasPrefix l (bytes "panic: ") = true) →
        r.Error = r0.Error) ∧
      (p1.tests ≠ [] → r.Error = r0.Error) := by
  have hp1' : separateLoop env (strings.Split (strings.TrimSpace input) strings.nl)
      (newOutputParser r0 input) = .ok p1 := hp1
  have hframe := separateLoop_frame env _ _ p1 hp1'
  have herr : p1.result.Error = r0.Error := hframe.2.1
  have hiff : initPanic p1 = true ↔
      (p1.tests = [] ∧ ∃ l ∈ p1.packageLines, strings.HasPrefix l (bytes "panic: ") = true) := by
    simp only [initPanic, Bool.and_eq_true, List.isEmpty_iff, List.any_eq_true, isPanicLine]
  have hno : ¬ (p1.tests = [] ∧
      ∃ l ∈ p1.packageLines, strings.HasPrefix l (bytes "panic: ") = true) →
      (recoverFromInitPanic (parseEachTestFunction env p1)).result.Error = r0.Error := by
    intro hc
    have hfalse : initPanic p1 = false := by
      rw [Bool.eq_false_iff]
      exact fun hi => hc (hiff.mp hi)
    simp [final_result, hfalse, herr]
  rw [ParsePackageResults_eq, hp1']
  refine ⟨_, rfl, ?_, hno, ?_⟩
  · intro hc
    have hi : initPanic p1 = true := hiff.mpr hc
    simp [final_result, hi]
  · intro hne
    exact hno (fun hc => hne hc.1)

/-- C15. When pass 1 completes, leaving the parser in state `p1`, the parse completes
and the test records of the report are those it had before followed by, for each
registered record in registration order, the result of the per-test parser with its
raw lines emptied. So the number of records added is the number of test-start lines
read before the first terminal line, and every record added has no raw lines; a
record with an error does not stop the pass. -/
theorem every_test_finalized (env : Env F) (r0 : PackageResult F) (input : GoString)
    (p1 : outputParser F)
    (hp1 : separateTestFunctionsAndMetadata env (newOutputParser r0 input) = .ok p1) :
    ∃ r, ParsePackageResults env r0 input = .ok r ∧
      r.TestResults = r0.TestResults ++
        p1.tests.map (fun t => { env.parseTestOutput t with RawLines := [] }) ∧
      (added r r0.TestResults.length).length =
        countStarts env (strings.Split (strings.TrimSpace input) strings.nl) ∧
      ∀ t ∈ added r r0.TestResults.length, t.RawLines = [] := by
  have hp1' : separateLoop env (strings.Split (strings.TrimSpace input) strings.nl)
      (newOutputParser r0 input) = .ok p1 := hp1
  have hframe := separateLoop_frame env _ _ p1 hp1'
  have hTR : p1.result.TestResults = r0.TestResults := hframe.1
  have hcount := separateLoop_count env _ _ p1 hp1'
  have hlen : p1.tests.length =
      countStarts env (strings.Split (strings.TrimSpace input) strings.nl) := by
    rw [hcount]
    simp [newOutputParser]
  have hres : (recoverFromInitPanic (parseEachTestFunction env p1)).result.TestResults =
      r0.TestResults ++ p1.tests.map (finalize env) := by
    simp [final_result, hTR]
  rw [ParsePackageResults_eq, hp1']
  refine ⟨_, rfl, hres, ?_, ?_⟩
  · simp only [added, hres, List.drop_left, List.length_map, hlen]
  · intro t ht
    simp only [added, hres, List.drop_left, List.mem_map] at ht
    obtain ⟨t', -, hfin⟩ := ht
    subst hfin
    rfl

/-- C16 (amended). For a test name `n` that is not empty and holds neither a newline
nor a space, the two name extractions agree: group 1 of the pattern on the start line
`=== RUN n` and the third space-separated token of the result line
`--- PASS: n (0.01s)` are both `n`. So, from any parser state, reading the start line
and then the result line registers a record named `n` and the result line finds and
updates that record. -/
theorem name_extractions_agree (env : Env F) (self : outputParser F) (n : GoString)
    (hne : n ≠ []) (hnl : strings.nl ∉ n) (hsp : strings.space ∉ n)
    (hts : terminalOutcome env (bytes "=== RUN " ++ n) = none)
    (htr : terminalOutcome env (bytes "--- PASS: " ++ n ++ bytes " (0.01s)") = none)
    (hs : env.isNewTest (bytes "=== RUN " ++ n) = true)
    (hr1 : env.isNewTest (bytes "--- PASS: " ++ n ++ bytes " (0.01s)") = false)
    (hr2 : env.isTestResult (bytes "--- PASS: " ++ n ++ bytes " (0.01s)") = true) :
    startName (bytes "=== RUN " ++ n) = some n ∧
      index (strings.Split (bytes "--- PASS: " ++ n ++ bytes " (0.01s)") strings.space) 2 =
        .ok n ∧
      separateLoop env [bytes "=== RUN " ++ n, bytes "--- PASS: " ++ n ++ bytes " (0.01s)"]
          self =
        .ok { self with
          line := bytes "--- PASS: " ++ n ++ bytes " (0.01s)"
          test := some self.tests.length
          tests := self.tests ++ [
            { TestName := n
              Passed := true
              Skipped := false
              Elapsed := env.parseTestFunctionDuration
                (bytes "--- PASS: " ++ n ++ bytes " (0.01s)")
              RawLines := []
              Error := [] }]
          testMap := (n, self.tests.length) :: self.testMap } := by
  have htok := result_line_token n hsp
  obtain ⟨hnf, hns⟩ := result_line_not_fail_or_skip n
  refine ⟨?_, htok, ?_⟩
  · simp [startName, FindStringSubmatch_run n hne hnl]
  · rw [separateLoop_cons_next _ _ _ _ hts]
    simp only [processTestOutput, registerTestFunction, hs, if_true,
      FindStringSubmatch_run n hne hnl, index, List.get?, NewTestResult]
    rw [separateLoop_cons_next _ _ _ _ htr]
    have htok' := htok
    simp only [index] at htok'
    simp only [processTestOutput, recordTestMetadata, hr1, hr2, Bool.false_eq_true, if_false,
      if_true, index, htok', lookup, hnf, hns, Bool.not_false]
    have hmod := modifyAt_append self.tests []
      ({ TestName := n, Passed := false, Skipped := false, Elapsed := 0, RawLines := [],
         Error := [] } : TestResult F)
      (fun t => { t with
        Passed := true
        Skipped := false
        Elapsed := env.parseTestFunctionDuration (bytes "--- PASS: " ++ n ++ bytes " (0.01s)") })
    simp only [separateLoop, hmod]

/-- C18. Let pass 1 have read the lines `pre`, none of them terminal, without failure,
and let a record named `n` be registered (the name stands on at least one start line
of `pre`, possibly on several, with any lines between and after them). Then reading
a test-result line that names `n` completes; the map binds `n` to the position `i` of
the record named `n` that was registered last (no later record bears that name); the
result line writes `Passed`, `Skipped` and `Elapsed` of the record at `i` and leaves
every other record, the earlier records named `n` among them, as it was; and every
record is then finalized into the report at its own position. -/
theorem result_updates_latest_record (env : Env F) (r0 : PackageResult F)
    (input lr n : GoString) (pre : List GoString) (p : outputParser F)
    (hpre : ∀ l ∈ pre, terminalOutcome env l = none)
    (hp : separateLoop env pre (newOutputParser r0 input) = .ok p)
    (hreg : n ∈ startNames env pre)
    (htr : terminalOutcome env lr = none)
    (hr1 : env.isNewTest lr = false) (hr2 : env.isTestResult lr = true)
    (hname : index (strings.Split lr strings.space) 2 = .ok n) :
    ∃ q i t, separateLoop env (pre ++ [lr]) (newOutputParser r0 input) = .ok q ∧
      lookup p.testMap n = some i ∧
      p.tests.get? i = some t ∧ t.TestName = n ∧
      (∀ j t', i < j → p.tests.get? j = some t' → t'.TestName ≠ n) ∧
      q.tests.get? i = some { t with
        Passed := !strings.HasPrefix lr (bytes "--- FAIL: ")
        Skipped := strings.HasPrefix lr (bytes "--- SKIP: ")
        Elapsed := env.parseTestFunctionDuration lr } ∧
      (∀ j, j ≠ i → q.tests.get? j = p.tests.get? j) ∧
      (recoverFromInitPanic (parseEachTestFunction env q)).result.TestResults =
        r0.TestResults ++ q.tests.map (fun t => { env.parseTestOutput t with RawLines := [] }) := by
  have hnames := separateLoop_names env pre _ p hp
  have hframe := separateLoop_frame env pre _ p hp
  have hTR : p.result.TestResults = r0.TestResults := hframe.1
  have hinv : mapAgrees p :=
    separateLoop_mapAgrees env pre _ p hp (fun _ => rfl)
  have hmem : n ∈ p.tests.map (fun t => t.TestName) := by
    rw [hnames]
    simpa [newOutputParser] using hreg
  obtain ⟨i, hi⟩ := lastNamed_of_mem p.tests n hmem
  have hlook : lookup p.testMap n = some i := (hinv n).trans hi
  obtain ⟨⟨t, ht, htn⟩, hlater⟩ := lastNamed_some p.tests n i hi
  have hname' := hname
  simp only [index] at hname'
  have hstep : separateLoop env (pre ++ [lr]) (newOutputParser r0 input) =
      .ok { p with
        line := lr
        test := some i
        tests := modifyAt p.tests i (fun t =>
          { t with
            Passed := !strings.HasPrefix lr (bytes "--- FAIL: ")
            Skipped := strings.HasPrefix lr (bytes "--- SKIP: ")
            Elapsed := env.parseTestFunctionDuration lr }) } := by
    rw [separateLoop_append env pre _ _ hpre, hp]
    simp only
    rw [separateLoop_cons_next _ _ _ _ htr]
    simp only [processTestOutput, recordTestMetadata, hr1, hr2, Bool.false_eq_true, if_false,
      if_true, index, hname', hlook, separateLoop]
  refine ⟨_, i, t, hstep, hlook, ht, htn, hlater, ?_, ?_, ?_⟩
  · simp only [modifyAt_get?, ht, Option.map_some']
  · intro j hj
    exact modifyAt_get?_ne _ _ _ _ hj
  · simp [final_result, finalize, hTR]

end Claims

/-- C17. A test-result line whose name is bound in the map to the registered record
`t` is processed without failure. In the updated record `Passed` is false exactly when
the line has the prefix `--- FAIL: ` and `Skipped` is true exactly when it has the
prefix `--- SKIP: `; no line has both prefixes, so a record that is skipped is
passed. -/
theorem skipped_implies_passed (env : Env F) (self : outputParser F) (name : GoString)
    (ptr : Nat) (t : TestResult F)
    (hname : index (strings.Split self.line strings.space) 2 = .ok name)
    (hlook : lookup self.testMap name = some ptr)
    (hget : self.tests.get? ptr = some t) :
    ∃ p t', recordTestMetadata env self = .ok p ∧ p.tests.get? ptr = some t' ∧
      (t'.Passed = false ↔ strings.HasPrefix self.line (bytes "--- FAIL: ") = true) ∧
      (t'.Skipped = true ↔ strings.HasPrefix self.line (bytes "--- SKIP: ") = true) ∧
      ¬ (strings.HasPrefix self.line (bytes "--- FAIL: ") = true ∧
        strings.HasPrefix self.line (bytes "--- SKIP: ") = true) ∧
      (t'.Skipped = true → t'.Passed = true) := by
  have hexcl := not_fail_and_skip self.line
  refine ⟨{ self with
      test := some ptr
      tests := modifyAt self.tests ptr (fun t =>
        { t with
          Passed := !strings.HasPrefix self.line (bytes "--- FAIL: ")
          Skipped := strings.HasPrefix self.line (bytes "--- SKIP: ")
          Elapsed := env.parseTestFunctionDuration self.line }) },
    { t with
      Passed := !strings.HasPrefix self.line (bytes "--- FAIL: ")
      Skipped := strings.HasPrefix self.line (bytes "--- SKIP: ")
      Elapsed := env.parseTestFunctionDuration self.line }, ?_, ?_, ?_, ?_, hexcl, ?_⟩
  · unfold recordTestMetadata
    simp only [hname, hlook]
  · simp only [modifyAt_get?, hget, Option.map_some']
  · simp
  · simp
  · intro hskip
    simp only at hskip
    cases hfail : strings.HasPrefix self.line (bytes "--- FAIL: ") with
    | false => simp
    | true => exact absurd ⟨hfail, hskip⟩ hexcl

/-- C1, on the text `?   pkg/foo<TAB>[no test files]`: the outcome is `NoTestFiles` and
the build output is that text. -/
theorem first_line_terminal_witness :
    strings.Split (strings.TrimSpace (bytes "?   pkg/foo\t[no test files]")) strings.nl =
        [bytes "?   pkg/foo\t[no test files]"] ∧
      terminalOutcome Sample.env (bytes "?   pkg/foo\t[no test files]") = some .NoTestFiles ∧
      ParsePackageResults Sample.env Sample.fresh (bytes "?   pkg/foo\t[no test files]") =
        .ok { Sample.fresh with
          Outcome := .NoTestFiles
          BuildOutput := bytes "?   pkg/foo\t[no test files]" } :=
  ⟨by decide, by decide,
    (first_line_terminal Sample.env Sample.fresh (bytes "?   pkg/foo\t[no test files]")
      (bytes "?   pkg/foo\t[no test files]") [] .NoTestFiles (by decide) (by decide)).1⟩

/-- C2, on a text whose only test panics although the package line
reports `ok`. -/
theorem error_forces_panicked_witness :
    ParsePackageResults Sample.env Sample.fresh
        (bytes "=== RUN TestA\npanic: boom\nok  \tpkg/foo\t0.012s") =
        .ok { Sample.fresh with
          PackageName := bytes "pkg/foo"
          Elapsed := ⟨12, 3⟩
          Outcome := .Panicked
          TestResults := [
            { TestName := bytes "TestA", Passed := false, Skipped := false, Elapsed := 0,
              RawLines := [], Error := bytes "panic: boom" }] } ∧
      (({ Sample.fresh with
          PackageName := bytes "pkg/foo"
          Elapsed := ⟨12, 3⟩
          Outcome := .Panicked
          TestResults := [
            { TestName := bytes "TestA", Passed := false, Skipped := false, Elapsed := 0,
              RawLines := [], Error := bytes "panic: boom" }] } :
        PackageResult Sample.Decimal).Outcome = .Panicked) :=
  ⟨by rfl,
    error_forces_panicked Sample.env Sample.fresh _
      (bytes "=== RUN TestA\npanic: boom\nok  \tpkg/foo\t0.012s")
      { TestName := bytes "TestA", Passed := false, Skipped := false,
        Elapsed := 0, RawLines := [], Error := bytes "panic: boom" }
      (by rfl) (by decide) (by decide)⟩

/-- C3, counterexample: the start line of `TestA` read twice gives two records named
`TestA`. -/
theorem repeated_start_line_two_records :
    ParsePackageResults Sample.env Sample.fresh (bytes "=== RUN TestA\n=== RUN TestA") =
      .ok { Sample.fresh with
        TestResults := [
          { TestName := bytes "TestA", Passed := false, Skipped := false, Elapsed := 0,
            RawLines := [], Error := [] },
          { TestName := bytes "TestA", Passed := false, Skipped := false, Elapsed := 0,
            RawLines := [], Error := [] }] } := by
  rfl

/-- C3 (amended), on a text with the start lines of `TestA`, `TestB` and `TestA`
again. -/
theorem added_names_are_start_names_witness :
    (∀ t, (Sample.env.parseTestOutput t).TestName = t.TestName) ∧
      (added ({ Sample.fresh with
          TestResults := [
            { TestName := bytes "TestA", Passed := false, Skipped := false, Elapsed := 0,
              RawLines := [], Error := [] },
            { TestName := bytes "TestB", Passed := false, Skipped := false, Elapsed := 0,
              RawLines := [], Error := [] },
            { TestName := bytes "TestA", Passed := true, Skipped := false, Elapsed := 0,
              RawLines := [], Error := [] }] } : PackageResult Sample.Decimal)
          Sample.fresh.TestResults.length).map (fun t => t.TestName) =
        startNames Sample.env (strings.Split (strings.TrimSpace
          (bytes "=== RUN TestA\n=== RUN TestB\n=== RUN TestA\n--- PASS: TestA (0.01s)"))
          strings.nl) :=
  ⟨fun t => by simp only [Sample.env, Sample.parseTestOutput]; split <;> rfl,
    added_names_are_start_names Sample.env Sample.fresh _
      (bytes "=== RUN TestA\n=== RUN TestB\n=== RUN TestA\n--- PASS: TestA (0.01s)")
      (by rfl)
      (fun t => by simp only [Sample.env, Sample.parseTestOutput]; split <;> rfl)⟩

/-- C4, failing input: a result line for a test no start line announced. The map
lookup yields nil and the parse aborts on the nil dereference. -/
theorem result_line_without_start_aborts :
    ParsePackageResults Sample.env Sample.fresh (bytes "--- PASS: TestA (0.01s)") =
      .error .nilDereference := by
  rfl

/-- C5, on the line `coverage: n/a% of statements`: the coverage is `-1`. -/
theorem coverage_line_witness :
    processTestOutput Sample.env (Sample.atLine (bytes "coverage: n/a% of statements")) =
      .ok { Sample.atLine (bytes "coverage: n/a% of statements") with
        result := { Sample.fresh with Coverage := -1 } } :=
  coverage_line Sample.env (Sample.atLine (bytes "coverage: n/a% of statements"))
    (bytes "n/a") (bytes " of statements") (by decide) (by decide) (by decide) (by decide)
    (by decide) (by decide) (by decide) (by decide)

/-- C6, counterexample: the text of the example as the spec writes it. Its last line
has two spaces, not a tab, after `ok`, so it is no package report: it is stored as
output of `TestA`, and the parse returns a report with the outcome unset, no package
name and no elapsed time; the elapsed time of `TestA` is `0`, not `0.01`. -/
theorem example_with_spaces_is_no_report :
    (Sample.env.isNewTest (bytes "=== RUN TestA") = true ∧
      Sample.env.isTestResult (bytes "--- PASS: TestA (0.01s)") = true ∧
      Sample.env.isPackageReport (bytes "ok  pkg/foo  0.012s") = false) ∧
      ParsePackageResults Sample.env Sample.fresh
        (bytes "=== RUN TestA\n--- PASS: TestA (0.01s)\nok  pkg/foo  0.012s") =
        .ok { Sample.fresh with
          TestResults := [
            { TestName := bytes "TestA", Passed := true, Skipped := false, Elapsed := 0,
              RawLines := [], Error := [] }] } := by
  refine ⟨by decide, ?_⟩
  rfl

/-- C6 (amended), with the sample environment: the package line gives `Passed`,
`pkg/foo` and `0.012`; the elapsed time of the test is the `0` the duration parser
returns for `--- PASS: TestA (0.01s)`. -/
theorem example_with_tabs_witness :
    ParsePackageResults Sample.env Sample.fresh
        (bytes "=== RUN TestA\n--- PASS: TestA (0.01s)\nok  \tpkg/foo\t0.012s") =
      .ok { Sample.fresh with
        Outcome := .Passed
        PackageName := bytes "pkg/foo"
        Elapsed := ⟨12, 3⟩
        TestResults := Sample.fresh.TestResults ++ [
          { TestName := bytes "TestA", Passed := true, Skipped := false, Elapsed := 0,
            RawLines := [], Error := [] }] } :=
  example_with_tabs Sample.env Sample.fresh 0 ⟨12, 3⟩ (by decide) (by decide) (by decide)
    (by decide) (by decide) (by decide) (by decide) (by decide) (by decide) (by decide)
    (by decide) (by decide) (by decide) (by decide)

/-- C10, on two texts that agree up to the build-failure line `# pkg/foo`. -/
theorem lines_after_terminal_ignored_witness :
    strings.Split (strings.TrimSpace (bytes "=== RUN TestA\nsome output\n# pkg/foo\nx.go:1: e"))
        strings.nl =
        [bytes "=== RUN TestA", bytes "some output"] ++ bytes "# pkg/foo" :: [bytes "x.go:1: e"] ∧
      strings.Split (strings.TrimSpace
          (bytes "=== RUN TestA\nsome output\n# pkg/foo\n=== RUN TestB\npanic: boom"))
        strings.nl =
        [bytes "=== RUN TestA", bytes "some output"] ++
          bytes "# pkg/foo" :: [bytes "=== RUN TestB", bytes "panic: boom"] ∧
      (terminalOutcome Sample.env (bytes "# pkg/foo")).isSome = true ∧
      Except.map withoutBuildOutput (ParsePackageResults Sample.env Sample.fresh
          (bytes "=== RUN TestA\nsome output\n# pkg/foo\nx.go:1: e")) =
        Except.map withoutBuildOutput (ParsePackageResults Sample.env Sample.fresh
          (bytes "=== RUN TestA\nsome output\n# pkg/foo\n=== RUN TestB\npanic: boom")) :=
  ⟨by decide, by decide, by decide,
    lines_after_terminal_ignored Sample.env Sample.fresh _ _ (bytes "# pkg/foo")
      [bytes "=== RUN TestA", bytes "some output"] [bytes "x.go:1: e"]
      [bytes "=== RUN TestB", bytes "panic: boom"] (by decide) (by decide) (by decide)⟩

/-- C8, counterexample: the build-failure line `# pkg/foo` is reached after a
package-scope line that starts with the panic marker; the final outcome is
`Panicked`, not `BuildFailure`. -/
theorem terminal_outcome_replaced :
    terminalOutcome Sample.env (bytes "# pkg/foo") = some .BuildFailure ∧
      ParsePackageResults Sample.env Sample.fresh (bytes "panic: boom\n# pkg/foo") =
        .ok { Sample.fresh with
          Outcome := .Panicked
          BuildOutput := bytes "panic: boom\n# pkg/foo"
          Error := bytes "panic: boom" } := by
  refine ⟨by decide, ?_⟩
  rfl

/-- C8 (amended), on the text `=== RUN TestA`, `some output`, `# pkg/foo`: the test
has no error, so the outcome is `BuildFailure`. -/
theorem terminal_line_outcome_witness :
    ∃ r, ParsePackageResults Sample.env Sample.fresh
        (bytes "=== RUN TestA\nsome output\n# pkg/foo") = .ok r ∧
      r.BuildOutput = strings.TrimSpace (bytes "=== RUN TestA\nsome output\n# pkg/foo") ∧
      r.Outcome =
        if initPanic ({ newOutputParser Sample.fresh
              (bytes "=== RUN TestA\nsome output\n# pkg/foo") with
            line := bytes "some output"
            test := some 0
            tests := [
              { TestName := bytes "TestA", Passed := false, Skipped := false, Elapsed := 0,
                RawLines := [bytes "some output"], Error := [] }]
            testMap := [(bytes "TestA", 0)] } : outputParser Sample.Decimal) ||
          ({ newOutputParser Sample.fresh
              (bytes "=== RUN TestA\nsome output\n# pkg/foo") with
            line := bytes "some output"
            test := some 0
            tests := [
              { TestName := bytes "TestA", Passed := false, Skipped := false, Elapsed := 0,
                RawLines := [bytes "some output"], Error := [] }]
            testMap := [(bytes "TestA", 0)] } : outputParser Sample.Decimal).tests.any
            (hasError Sample.env)
        then .Panicked else .BuildFailure :=
  terminal_line_outcome Sample.env Sample.fresh (bytes "=== RUN TestA\nsome output\n# pkg/foo")
    (bytes "# pkg/foo") [bytes "=== RUN TestA", bytes "some output"] [] .BuildFailure _
    (by decide) (by decide) (by decide) (by rfl)

/-- C9, counterexample: after the start lines of `TestA` and `TestB` and the result
line of `TestA`, the plain line `some output` is in the raw lines of `TestA`; those of
`TestB` are empty. -/
theorem plain_line_goes_to_result_test :
    Except.map (fun p => p.tests.map (fun t => (t.TestName, t.RawLines)))
        (separateTestFunctionsAndMetadata Sample.env (newOutputParser Sample.fresh
          (bytes "=== RUN TestA\n=== RUN TestB\n--- PASS: TestA (0.01s)\nsome output"))) =
      .ok [(bytes "TestA", [bytes "some output"]), (bytes "TestB", [])] := by
  rfl

/-- C9 (amended), on the start lines of `TestA` and `TestB`, the result line of `TestA`
and the plain line `<TAB>some output`. -/
theorem result_line_activates_named_test_witness :
    separateLoop Sample.env
        [bytes "=== RUN " ++ bytes "TestA", bytes "=== RUN " ++ bytes "TestB",
          bytes "--- PASS: TestA (0.01s)", bytes "\tsome output"]
        (Sample.atLine []) =
      .ok { Sample.atLine [] with
        line := strings.TrimLeft (bytes "\tsome output") [strings.tab]
        test := some (Sample.atLine []).tests.length
        tests := (Sample.atLine []).tests ++ [
          { TestName := bytes "TestA"
            Passed := !strings.HasPrefix (bytes "--- PASS: TestA (0.01s)") (bytes "--- FAIL: ")
            Skipped := strings.HasPrefix (bytes "--- PASS: TestA (0.01s)") (bytes "--- SKIP: ")
            Elapsed := Sample.env.parseTestFunctionDuration (bytes "--- PASS: TestA (0.01s)")
            RawLines := [strings.TrimLeft (bytes "\tsome output") [strings.tab]]
            Error := [] },
          { TestName := bytes "TestB", Passed := false, Skipped := false, Elapsed := 0,
            RawLines := [], Error := [] }]
        testMap := (bytes "TestB", (Sample.atLine []).tests.length + 1) ::
          (bytes "TestA", (Sample.atLine []).tests.length) :: (Sample.atLine []).testMap } :=
  result_line_activates_named_test Sample.env (Sample.atLine []) (bytes "TestA") (bytes "TestB")
    (bytes "--- PASS: TestA (0.01s)") (bytes "\tsome output") (by decide) (by decide)
    (by decide) (by decide) (by decide) (by decide) (by decide) (by decide) (by decide)
    (by decide) (by decide) (by decide) (by decide) (by rfl) (by decide) (by decide)
    (by decide)

/-- C7, counterexamples. Four texts without test-start line that hold a line starting
with `panic: `: with a tab-indented line the error has that line without its tab; with
package-report lines the error lacks them; with a terminal line first the outcome is
the terminal one and the error is not written; with a result line the parse aborts. -/
theorem init_panic_error_is_not_the_text :
    (ParsePackageResults Sample.env Sample.fresh (bytes "panic: boom\n\tmain.go:5 +0x1d") =
        .ok { Sample.fresh with
          Outcome := .Panicked
          Error := bytes "panic: boom\nmain.go:5 +0x1d" } ∧
      bytes "panic: boom\nmain.go:5 +0x1d" ≠ bytes "panic: boom\n\tmain.go:5 +0x1d") ∧
      (ParsePackageResults Sample.env Sample.fresh
          (bytes "panic: boom\nexit status 2\nFAIL\tpkg/foo\t0.005s") =
        .ok { Sample.fresh with
          Outcome := .Panicked
          PackageName := bytes "pkg/foo"
          Elapsed := ⟨5, 3⟩
          Error := bytes "panic: boom" }) ∧
      (ParsePackageResults Sample.env Sample.fresh (bytes "# pkg/foo\npanic: boom") =
        .ok { Sample.fresh with
          Outcome := .BuildFailure
          BuildOutput := bytes "# pkg/foo\npanic: boom" }) ∧
      ParsePackageResults Sample.env Sample.fresh
          (bytes "panic: boom\n--- FAIL: TestA (0.00s)") = .error .nilDereference := by
  refine ⟨⟨?_, by decide⟩, ?_, ?_, ?_⟩ <;> rfl

/-- C7 (amended), on a panic trace followed by the package-report lines. -/
theorem init_panic_recovered_witness :
    ∃ r, ParsePackageResults Sample.env Sample.fresh
        (bytes "panic: boom\n\ngoroutine 1 [running]:\n\tmain.go:5 +0x1d\nFAIL\tpkg/foo\t0.005s") =
        .ok r ∧
      r.Outcome = .Panicked ∧
      r.Error = strings.Join (plainLines Sample.env (strings.Split (strings.TrimSpace
        (bytes "panic: boom\n\ngoroutine 1 [running]:\n\tmain.go:5 +0x1d\nFAIL\tpkg/foo\t0.005s"))
        strings.nl)) [strings.nl] ∧
      r.TestResults = Sample.fresh.TestResults :=
  init_panic_recovered Sample.env Sample.fresh
    (bytes "panic: boom\n\ngoroutine 1 [running]:\n\tmain.go:5 +0x1d\nFAIL\tpkg/foo\t0.005s")
    (by decide) (by decide)

/-- C11, on a text without test whose package line reports `ok`: the outcome is
`Passed` and the error stays empty. -/
theorem outcome_kept_without_tests_witness :
    ParsePackageResults Sample.env Sample.fresh
        (bytes "some output\nPASS\nok  \tpkg/foo\t0.012s") =
        .ok { Sample.fresh with
          PackageName := bytes "pkg/foo", Elapsed := ⟨12, 3⟩, Outcome := .Passed } ∧
      Outcome.Passed = lastOutcome Sample.env (strings.Split (strings.TrimSpace
        (bytes "some output\nPASS\nok  \tpkg/foo\t0.012s")) strings.nl) Sample.fresh.Outcome ∧
      ([] : GoString) = Sample.fresh.Error :=
  outcome_kept_without_tests Sample.env Sample.fresh
    (bytes "some output\nPASS\nok  \tpkg/foo\t0.012s")
    { newOutputParser Sample.fresh (bytes "some output\nPASS\nok  \tpkg/foo\t0.012s") with
      line := bytes "ok  \tpkg/foo\t0.012s"
      packageLines := [bytes "some output"]
      result := { Sample.fresh with
        PackageName := bytes "pkg/foo", Elapsed := ⟨12, 3⟩, Outcome := .Passed } }
    (by rfl) (by rfl) (by decide)

/-- C12, on the failure report `FAIL<TAB> pkg/foo <TAB>0.005s`. -/
theorem package_report_line_witness :
    processTestOutput Sample.env (Sample.atLine (bytes "FAIL\t pkg/foo \t0.005s")) =
      .ok { Sample.atLine (bytes "FAIL\t pkg/foo \t0.005s") with
        result := { Sample.fresh with
          Outcome := .Failed
          PackageName := bytes "pkg/foo"
          Elapsed := ⟨5, 3⟩ } } :=
  package_report_line Sample.env (Sample.atLine (bytes "FAIL\t pkg/foo \t0.005s"))
    (bytes "FAIL") (bytes " pkg/foo ") (bytes "0.005s") [] (by decide) (by decide) (by decide)
    (by decide) (Or.inl (by decide))

/-- C13, counterexample: the plain line `<TAB><TAB>deep` is stored as `deep`, not as
`<TAB>deep`; in a report, the error made of the package-scope lines shows it. -/
theorem two_tabs_both_removed :
    (processTestOutput Sample.env (Sample.atLine (bytes "\t\tdeep")) =
        .ok { Sample.atLine (bytes "\t\tdeep") with
          line := bytes "deep"
          packageLines := [bytes "deep"] } ∧
      bytes "deep" ≠ bytes "\tdeep") ∧
      ParsePackageResults Sample.env Sample.fresh (bytes "panic: boom\n\t\tdeep") =
        .ok { Sample.fresh with Outcome := .Panicked, Error := bytes "panic: boom\ndeep" } := by
  refine ⟨⟨?_, by decide⟩, ?_⟩ <;> rfl

/-- C13 (amended), on the plain line `<TAB><TAB>deep` with no active test. -/
theorem plain_line_stored_witness :
    processTestOutput Sample.env (Sample.atLine (bytes "\t\tdeep")) =
      .ok { Sample.atLine (bytes "\t\tdeep") with
        line := bytes "deep"
        packageLines := (Sample.atLine (bytes "\t\tdeep")).packageLines ++ [bytes "deep"] } :=
  plain_line_stored Sample.env (Sample.atLine (bytes "\t\tdeep")) 2 (bytes "deep") (by decide)
    (by decide) (by decide) (by decide) (by decide)

/-- C14, on a text with a package-scope panic line and a registered test: no error is
written. -/
theorem error_written_on_init_panic_only_witness :
    ∃ r, ParsePackageResults Sample.env Sample.fresh
        (bytes "panic: early\n=== RUN TestA\n--- PASS: TestA (0.01s)") = .ok r ∧
      (([Sample.passedTestA] = [] ∧
          ∃ l ∈ [bytes "panic: early"], strings.HasPrefix l (bytes "panic: ") = true) →
        r.Outcome = .Panicked ∧
          r.Error = strings.Join [bytes "panic: early"] [strings.nl]) ∧
      (¬ ([Sample.passedTestA] = [] ∧
          ∃ l ∈ [bytes "panic: early"], strings.HasPrefix l (bytes "panic: ") = true) →
        r.Error = Sample.fresh.Error) ∧
      ([Sample.passedTestA] ≠ [] → r.Error = Sample.fresh.Error) :=
  error_written_on_init_panic_only Sample.env Sample.fresh
    (bytes "panic: early\n=== RUN TestA\n--- PASS: TestA (0.01s)")
    { newOutputParser Sample.fresh
        (bytes "panic: early\n=== RUN TestA\n--- PASS: TestA (0.01s)") with
      line := bytes "--- PASS: TestA (0.01s)"
      packageLines := [bytes "panic: early"]
      test := some 0
      tests := [Sample.passedTestA]
      testMap := [(bytes "TestA", 0)] }
    (by rfl)

/-- C15, on a text with two tests, the first of which panics. -/
theorem every_test_finalized_witness :
    ∃ r, ParsePackageResults Sample.env Sample.fresh
        (bytes "=== RUN TestA\npanic: boom\n=== RUN TestB\nsome output") = .ok r ∧
      r.TestResults = Sample.fresh.TestResults ++
        ([{ TestName := bytes "TestA", Passed := false, Skipped := false, Elapsed := 0,
            RawLines := [bytes "panic: boom"], Error := [] },
          { TestName := bytes "TestB", Passed := false, Skipped := false, Elapsed := 0,
            RawLines := [bytes "some output"], Error := [] }] :
          List (TestResult Sample.Decimal)).map
          (fun t => { Sample.env.parseTestOutput t with RawLines := [] }) ∧
      (added r Sample.fresh.TestResults.length).length =
        countStarts Sample.env (strings.Split (strings.TrimSpace
          (bytes "=== RUN TestA\npanic: boom\n=== RUN TestB\nsome output")) strings.nl) ∧
      ∀ t ∈ added r Sample.fresh.TestResults.length, t.RawLines = [] :=
  every_test_finalized Sample.env Sample.fresh
    (bytes "=== RUN TestA\npanic: boom\n=== RUN TestB\nsome output")
    { newOutputParser Sample.fresh
        (bytes "=== RUN TestA\npanic: boom\n=== RUN TestB\nsome output") with
      line := bytes "some output"
      test := some 1
      tests := [
        { TestName := bytes "TestA", Passed := false, Skipped := false, Elapsed := 0,
          RawLines := [bytes "panic: boom"], Error := [] },
        { TestName := bytes "TestB", Passed := false, Skipped := false, Elapsed := 0,
          RawLines := [bytes "some output"], Error := [] }]
      testMap := [(bytes "TestB", 1), (bytes "TestA", 0)] }
    (by rfl)

/-- C16, counterexample: for the name `Test A` the pattern gives `Test A` and the
third token of the result line is `Test`; the lookup misses and the parse aborts. -/
theorem name_with_space_extractions_differ :
    startName (bytes "=== RUN " ++ bytes "Test A") = some (bytes "Test A") ∧
      index (strings.Split (bytes "--- PASS: " ++ bytes "Test A" ++ bytes " (0.01s)")
        strings.space) 2 = .ok (bytes "Test") ∧
      ParsePackageResults Sample.env Sample.fresh
        (bytes "=== RUN Test A\n--- PASS: Test A (0.01s)") = .error .nilDereference := by
  refine ⟨by decide, ?_, ?_⟩ <;> rfl

/-- C16 (amended), on the name `TestA`. -/
theorem name_extractions_agree_witness :
    startName (bytes "=== RUN " ++ bytes "TestA") = some (bytes "TestA") ∧
      index (strings.Split (bytes "--- PASS: " ++ bytes "TestA" ++ bytes " (0.01s)")
        strings.space) 2 = .ok (bytes "TestA") ∧
      separateLoop Sample.env
          [bytes "=== RUN " ++ bytes "TestA",
            bytes "--- PASS: " ++ bytes "TestA" ++ bytes " (0.01s)"]
          (Sample.atLine []) =
        .ok { Sample.atLine [] with
          line := bytes "--- PASS: " ++ bytes "TestA" ++ bytes " (0.01s)"
          test := some (Sample.atLine []).tests.length
          tests := (Sample.atLine []).tests ++ [
            { TestName := bytes "TestA"
              Passed := true
              Skipped := false
              Elapsed := Sample.env.parseTestFunctionDuration
                (bytes "--- PASS: " ++ bytes "TestA" ++ bytes " (0.01s)")
              RawLines := []
              Error := [] }]
          testMap := (bytes "TestA", (Sample.atLine []).tests.length) ::
            (Sample.atLine []).testMap } :=
  name_extractions_agree Sample.env (Sample.atLine []) (bytes "TestA") (by decide) (by decide)
    (by decide) (by decide) (by decide) (by decide) (by decide) (by decide)

/-- C17, on the result line `--- SKIP: TestA (0.00s)` of the registered test
`TestA`. -/
theorem skipped_implies_passed_witness :
    ∃ p t', recordTestMetadata Sample.env
        { Sample.atLine (bytes "--- SKIP: TestA (0.00s)") with
          tests := [Sample.passedTestA], testMap := [(bytes "TestA", 0)] } = .ok p ∧
      p.tests.get? 0 = some t' ∧
      (t'.Passed = false ↔
        strings.HasPrefix (bytes "--- SKIP: TestA (0.00s)") (bytes "--- FAIL: ") = true) ∧
      (t'.Skipped = true ↔
        strings.HasPrefix (bytes "--- SKIP: TestA (0.00s)") (bytes "--- SKIP: ") = true) ∧
      ¬ (strings.HasPrefix (bytes "--- SKIP: TestA (0.00s)") (bytes "--- FAIL: ") = true ∧
        strings.HasPrefix (bytes "--- SKIP: TestA (0.00s)") (bytes "--- SKIP: ") = true) ∧
      (t'.Skipped = true → t'.Passed = true) :=
  skipped_implies_passed Sample.env
    { Sample.atLine (bytes "--- SKIP: TestA (0.00s)") with
      tests := [Sample.passedTestA], testMap := [(bytes "TestA", 0)] }
    (bytes "TestA") 0 Sample.passedTestA (by rfl) (by decide) (by rfl)

/-- C18, on the lines `go test` prints for a test run twice, skipped the first time:
after the start line and the result line of the first run and the start line of the
second run, the second result line updates the record at position 1 and leaves the
skipped one at position 0. -/
theorem result_updates_latest_record_witness :
    ∃ q i t, separateLoop Sample.env
        ([bytes "=== RUN TestA", bytes "--- SKIP: TestA (0.00s)", bytes "=== RUN TestA"] ++
          [bytes "--- PASS: TestA (0.01s)"])
        (newOutputParser Sample.fresh (bytes
          "=== RUN TestA\n--- SKIP: TestA (0.00s)\n=== RUN TestA\n--- PASS: TestA (0.01s)")) =
        .ok q ∧
      lookup [(bytes "TestA", 1), (bytes "TestA", 0)] (bytes "TestA") = some i ∧
      [Sample.skippedTestA, Sample.newTestA].get? i = some t ∧
      t.TestName = bytes "TestA" ∧
      (∀ j t', i < j → [Sample.skippedTestA, Sample.newTestA].get? j = some t' →
        t'.TestName ≠ bytes "TestA") ∧
      q.tests.get? i = some { t with
        Passed := !strings.HasPrefix (bytes "--- PASS: TestA (0.01s)") (bytes "--- FAIL: ")
        Skipped := strings.HasPrefix (bytes "--- PASS: TestA (0.01s)") (bytes "--- SKIP: ")
        Elapsed := Sample.env.parseTestFunctionDuration (bytes "--- PASS: TestA (0.01s)") } ∧
      (∀ j, j ≠ i → q.tests.get? j = [Sample.skippedTestA, Sample.newTestA].get? j) ∧
      (recoverFromInitPanic (parseEachTestFunction Sample.env q)).result.TestResults =
        Sample.fresh.TestResults ++
          q.tests.map (fun t => { Sample.env.parseTestOutput t with RawLines := [] }) :=
  result_updates_latest_record Sample.env Sample.fresh
    (bytes "=== RUN TestA\n--- SKIP: TestA (0.00s)\n=== RUN TestA\n--- PASS: TestA (0.01s)")
    (bytes "--- PASS: TestA (0.01s)") (bytes "TestA")
    [bytes "=== RUN TestA", bytes "--- SKIP: TestA (0.00s)", bytes "=== RUN TestA"]
    { newOutputParser Sample.fresh (bytes
        "=== RUN TestA\n--- SKIP: TestA (0.00s)\n=== RUN TestA\n--- PASS: TestA (0.01s)") with
      line := bytes "=== RUN TestA"
      test := some 1
      tests := [Sample.skippedTestA, Sample.newTestA]
      testMap := [(bytes "TestA", 1), (bytes "TestA", 0)] }
    (by decide) (by rfl) (by decide) (by decide) (by decide) (by decide) (by rfl)

end PackageParser
